import Mathlib

/-!
# Verification of the mpdecimal conformance/fault-injection test harness

Shallow embedding of the decimal test harness found in `tests/runtest.c`,
`tests/test.c` (C) and `tests++/runtest.cc`, `tests++/test.cc` (C++).
Pure fragments of the C code are translated into Lean functions; the
stateful allocator machinery of `test.c` is translated into explicit
state passing.  Engine functionality that lives outside the harness
sources (the libmpdec library itself) is modelled from the spec, and
each such definition is marked `Modelled from the spec:` in its doc
comment.

The embedding targets the default build configuration of the harness:
`MPD_CONFIG_64`, `RT_VERBOSITY` undefined, a non-legacy compiler.
-/

/- ------------------------------------------------------------------ -/
/- Status-condition and flag constants                                 -/
/- ------------------------------------------------------------------ -/

/-- Modelled from the spec: status condition `Clamped` (§6).  The numeric
bit values come from the engine header `mpdecimal.h`, which is not part of
the harness sources; each condition name maps to one status bit. -/
def MPD_Clamped : Nat := 0x00000001

/-- Modelled from the spec: status condition `Conversion_syntax` (§6). -/
def MPD_Conversion_syntax : Nat := 0x00000002

/-- Modelled from the spec: status condition `Division_by_zero` (§6). -/
def MPD_Division_by_zero : Nat := 0x00000004

/-- Modelled from the spec: status condition `Division_impossible` (§6). -/
def MPD_Division_impossible : Nat := 0x00000008

/-- Modelled from the spec: status condition `Division_undefined` (§6). -/
def MPD_Division_undefined : Nat := 0x00000010

/-- Modelled from the spec: status condition `Fpu_error` (§6). -/
def MPD_Fpu_error : Nat := 0x00000020

/-- Modelled from the spec: status condition `Inexact` (§6). -/
def MPD_Inexact : Nat := 0x00000040

/-- Modelled from the spec: status condition `Invalid_context` (§6). -/
def MPD_Invalid_context : Nat := 0x00000080

/-- Modelled from the spec: status condition `Invalid_operation` (§6). -/
def MPD_Invalid_operation : Nat := 0x00000100

/-- Modelled from the spec: status condition `Malloc_error` (§6). -/
def MPD_Malloc_error : Nat := 0x00000200

/-- Modelled from the spec: status condition `Not_implemented` (§6). -/
def MPD_Not_implemented : Nat := 0x00000400

/-- Modelled from the spec: status condition `Overflow` (§6). -/
def MPD_Overflow : Nat := 0x00000800

/-- Modelled from the spec: status condition `Rounded` (§6). -/
def MPD_Rounded : Nat := 0x00001000

/-- Modelled from the spec: status condition `Subnormal` (§6). -/
def MPD_Subnormal : Nat := 0x00002000

/-- Modelled from the spec: status condition `Underflow` (§6). -/
def MPD_Underflow : Nat := 0x00004000

/-- Modelled from the spec: sign flag of a decimal value (`mpdecimal.h`,
not under the harness sources): bit 0 of the 8-bit `flags` field. -/
def MPD_NEG : Nat := 1

/-- Modelled from the spec: infinity flag, bit 1 of `flags`. -/
def MPD_INF : Nat := 2

/-- Modelled from the spec: quiet not-a-number flag, bit 2 of `flags`. -/
def MPD_NAN : Nat := 4

/-- Modelled from the spec: signaling not-a-number flag, bit 3 of `flags`. -/
def MPD_SNAN : Nat := 8

/-- Modelled from the spec: static-allocation flag, bit 4 of `flags`. -/
def MPD_STATIC : Nat := 16

/-- Modelled from the spec: static-data flag, bit 5 of `flags`. -/
def MPD_STATIC_DATA : Nat := 32

/-- Modelled from the spec: shared-data flag, bit 6 of `flags`. -/
def MPD_SHARED_DATA : Nat := 64

/-- Modelled from the spec: const-data flag, bit 7 of `flags`. -/
def MPD_CONST_DATA : Nat := 128

/-- Modelled from the spec: the transient allocation-related flag bits,
`MPD_STATIC_DATA|MPD_SHARED_DATA|MPD_CONST_DATA`. -/
def MPD_DATAFLAGS : Nat := MPD_STATIC_DATA ||| MPD_SHARED_DATA ||| MPD_CONST_DATA

/-- The complement of `MPD_DATAFLAGS` within the 8-bit `flags` field:
`~MPD_DATAFLAGS` truncated to the width of `uint8_t`. -/
def MPD_DATAFLAGS_COMPL : Nat := 255 ^^^ MPD_DATAFLAGS

/- ------------------------------------------------------------------ -/
/- The decimal value (mpd_t)                                           -/
/- ------------------------------------------------------------------ -/

/-- Shallow embedding of `mpd_t`.  `data` holds the significant coefficient
words (base `10^19` in the 64-bit configuration); the source's `len` field
is the number of significant words and is represented here as
`data.length`, since `equalmem` compares exactly the first `len` words. -/
structure Mpd where
  flags : Nat
  exp : Int
  digits : Nat
  data : List Nat
  deriving DecidableEq, Repr

/-- `mpd_isqnan` (engine macro, modelled from the spec): the quiet-NaN
flag bit is set. -/
def mpd_isqnan (a : Mpd) : Bool := a.flags &&& MPD_NAN != 0

/-- `mpd_issnan` (engine macro, modelled from the spec): the signaling-NaN
flag bit is set. -/
def mpd_issnan (a : Mpd) : Bool := a.flags &&& MPD_SNAN != 0

/-- `mpd_isnan` (engine macro, modelled from the spec): either NaN flag
bit is set. -/
def mpd_isnan (a : Mpd) : Bool := a.flags &&& (MPD_NAN ||| MPD_SNAN) != 0

/-- `equalmem` from `tests/runtest.c` (C harness): flags, exponent, word
count, digit count and all coefficient words must be equal.  Note that the
C harness compares the full `flags` byte. -/
def equalmem (a b : Mpd) : Bool :=
  a.flags == b.flags && a.exp == b.exp && a.data.length == b.data.length &&
    a.digits == b.digits && a.data == b.data

/-- `equalmem` from `tests++/runtest.cc` (C++ harness): identical to the C
version except that the allocation-related `MPD_DATAFLAGS` bits are masked
out of the flags before comparison. -/
def equalmemCpp (a b : Mpd) : Bool :=
  (a.flags &&& MPD_DATAFLAGS_COMPL) == (b.flags &&& MPD_DATAFLAGS_COMPL) &&
    a.exp == b.exp && a.data.length == b.data.length &&
    a.digits == b.digits && a.data == b.data

/-- The equality predicate claimed by the spec for the changed-operand
check (spec §3, DecimalValue): equality of exponent, digit count,
coefficient digit sequence, and of the flag bits after excluding the
transient allocation-related bits.  Kept separate from the definitions
translated from the source so that the two can be compared. -/
def specByteExactEq (a b : Mpd) : Prop :=
  a.exp = b.exp ∧ a.digits = b.digits ∧ a.data = b.data ∧
    a.flags &&& MPD_DATAFLAGS_COMPL = b.flags &&& MPD_DATAFLAGS_COMPL

instance (a b : Mpd) : Decidable (specByteExactEq a b) := by
  unfold specByteExactEq; infer_instance

/- ------------------------------------------------------------------ -/
/- check_equalmem: the changed-operand check                           -/
/- ------------------------------------------------------------------ -/

/-- The C harness's per-file failure state: the `file_failure` and
`global_failure` globals of `tests/runtest.c` (0 or 1). -/
structure CFileState where
  file_failure : Nat
  global_failure : Nat
  deriving DecidableEq, Repr

/-- `check_equalmem` from `tests/runtest.c`: on inequality it prints
`FAIL: const arg changed: <id>` to stderr and returns; it does not touch
`file_failure`/`global_failure` and does not throw.  The returned
`Option String` is the diagnostic written to stderr, the returned state
is the failure state after the call. -/
def check_equalmem (a b : Mpd) (id : String) (st : CFileState) :
    Option String × CFileState :=
  if equalmem a b then (none, st)
  else (some ("FAIL: const arg changed: " ++ id), st)

/-- `check_equalmem` from `tests++/runtest.cc`: on inequality it invokes
`err_token(token, "const arg changed")`, which throws a `test::Failure`
exception whose message starts with `token.at(0)` (the test id).  The
exception is modelled with `Except`. -/
def check_equalmemCpp (tok0 : String) (a b : Mpd) : Except String Unit :=
  if equalmemCpp a b then Except.ok ()
  else Except.error (tok0 ++ ": const arg changed")

/-- `do_file` from `tests++/runtest.cc`, reduced to its exception handling:
a `test::Failure` escaping the stream is caught and its message is stored
as the stream's status slot; a stream that completes stores `PASS`. -/
def do_file_status (r : Except String Unit) : String :=
  match r with
  | Except.ok _ => "PASS"
  | Except.error e => e

/- ------------------------------------------------------------------ -/
/- Case-insensitive token helpers                                      -/
/- ------------------------------------------------------------------ -/

/-- ASCII lower-casing of one character (the behaviour of C `tolower` in
the C locale, which the harness runs in). -/
def lowerChar (c : Char) : Char :=
  if 'A' ≤ c ∧ c ≤ 'Z' then Char.ofNat (c.toNat + 32) else c

/-- ASCII lower-casing of a string. -/
def toLowerAscii (s : String) : String := String.mk (s.data.map lowerChar)

/-- `eqtoken` from `tests/runtest.c`: case-insensitive string equality
(`strcasecmp == 0`). -/
def eqtoken (token s : String) : Bool := toLowerAscii token == toLowerAscii s

/-- `startswith` from `tests/runtest.c`: case-insensitive prefix test
(`strncasecmp(token, s, strlen(s)) == 0`). -/
def startswith (token s : String) : Bool :=
  (toLowerAscii s).data.isPrefixOf (toLowerAscii token).data

/- ------------------------------------------------------------------ -/
/- The status reconciler: compare_expected and its override tables     -/
/- ------------------------------------------------------------------ -/

/-- `struct result_diff` from `tests/runtest.c`. -/
structure ResultDiff where
  id : String
  calcStr : String
  expectedStr : String

/-- `struct status_diff` from `tests/runtest.c`. -/
structure StatusDiff where
  id : String
  calcStatus : Nat
  expectedStatus : Nat

/-- `ulp_cases` from `tests/runtest.c`: results allowed to differ by less
than one ULP, consulted only when `ctx->allcr` is 0. -/
def ulp_cases : List ResultDiff :=
  [⟨"expx013", "1.001000", "1.001001"⟩,
   ⟨"expx020", "1.000000", "1.000001"⟩,
   ⟨"expx109", "0.999999910000004049999878", "0.999999910000004049999879"⟩,
   ⟨"expx1036", "1.005088", "1.005087"⟩,
   ⟨"expx350", "1.0000000", "1.0000001"⟩,
   ⟨"expx351", "1.0000000", "1.0000001"⟩,
   ⟨"expx352", "1.0000000", "1.0000001"⟩]

/-- `status_cases` from `tests/runtest.c`: documented intentional
status-flag divergences. -/
def status_cases : List StatusDiff :=
  [⟨"pwsx803", MPD_Inexact ||| MPD_Rounded ||| MPD_Subnormal ||| MPD_Underflow,
    MPD_Inexact ||| MPD_Rounded⟩]

/-- The ULP-override test of `compare_expected`: some entry matches the
triple (test id, computed string, expected string); the id comparison is
case-insensitive, the string comparisons are exact (`strcmp`). -/
def ulpMatch (id calcStr expectedStr : String) : Bool :=
  ulp_cases.any fun e =>
    eqtoken id e.id && expectedStr == e.expectedStr && calcStr == e.calcStr

/-- The status-override test of `compare_expected`: some entry matches the
triple (test id, expected status, computed status). -/
def statusMatch (id : String) (expected_status status : Nat) : Bool :=
  status_cases.any fun e =>
    eqtoken id e.id && expected_status == e.expectedStatus && status == e.calcStatus

/-- Result of one `compare_expected` call: whether a string-result failure
and/or a status failure was reported (each sets
`global_failure = file_failure = 1` in the source). -/
structure CmpRes where
  resultFail : Bool
  statusFail : Bool
  deriving DecidableEq, Repr

/-- `compare_expected` from `tests/runtest.c` (default build,
`RT_VERBOSITY` undefined): first the ULP-override table is consulted
(only when `ctx->allcr == 0`), then the status-override table; a matching
entry suppresses all failure reporting.  Otherwise a failure is reported
when the computed string differs from the expected string, and when the
accumulated status differs from the expected status.  `allcr` and `status`
are the fields of the live context. -/
def compare_expected (calcStr expectedStr : String) (expected_status : Nat)
    (id : String) (allcr status : Nat) : CmpRes :=
  if allcr == 0 && ulpMatch id calcStr expectedStr then ⟨false, false⟩
  else if statusMatch id expected_status status then ⟨false, false⟩
  else ⟨calcStr != expectedStr, status != expected_status⟩

/-- `compare_expected` reports a failure iff either component failed. -/
def reportsFailure (r : CmpRes) : Bool := r.resultFail || r.statusFail

/- ------------------------------------------------------------------ -/
/- resolve_status_hack                                                 -/
/- ------------------------------------------------------------------ -/

/-- `resolve_status_hack` from `tests/runtest.c` (identical in
`tests++/runtest.cc`): narrows an expected generic `Invalid_operation`
to the more specific computed division condition.  Applied once, after
the first invocation, to the expected status used for all subsequent
comparisons of a `divmod` test. -/
def resolve_status_hack (expstatus status : Nat) : Nat :=
  let e1 :=
    if expstatus &&& MPD_Invalid_operation ≠ 0 ∧
        status &&& MPD_Division_impossible ≠ 0 then
      MPD_Division_impossible
    else expstatus
  if e1 &&& MPD_Invalid_operation ≠ 0 ∧
      status &&& MPD_Division_undefined ≠ 0 then
    MPD_Division_undefined
  else e1

/- ------------------------------------------------------------------ -/
/- Tokenizer: nexttoken/split from tests/runtest.c                     -/
/- ------------------------------------------------------------------ -/

/-- C `isspace` in the C locale (the harness casts to `unsigned char`
and never changes `LC_CTYPE`). -/
def cIsspace (c : Char) : Bool :=
  c == ' ' || c == '\t' || c == '\n' || c == '\x0b' || c == '\x0c' || c == '\r'

/-- `MAXTOKEN` from `tests/runtest.c`. -/
def MAXTOKEN : Nat := 32

/-- The quoted-token scan of `nexttoken` (`tests/runtest.c`): starting
just after an opening quote `qc`, scan to the closing quote.  A doubled
quote character does not end the token; both of its characters remain in
the token text.  Reaching the end of input without a closing quote is the
`NULL` return of the source (`none`).  On success the token text and the
input after the closing quote are returned. -/
def scanQuote (qc : Char) : List Char → List Char → Option (List Char × List Char)
  | _, [] => none
  | acc, c :: rest =>
    if c == qc then
      match rest with
      | [] => some (acc.reverse, [])
      | c2 :: rest2 =>
        if c2 == qc then scanQuote qc (c2 :: c :: acc) rest2
        else some (acc.reverse, c2 :: rest2)
    else scanQuote qc (c :: acc) rest

/-- The unquoted-token scan of `nexttoken`: scan to the next whitespace
character, which is consumed.  Reaching the end of input before any
whitespace is the `NULL` return of the source (the token is dropped). -/
def scanPlain : List Char → List Char → Option (List Char × List Char)
  | _, [] => none
  | acc, c :: rest =>
    if cIsspace c then some (acc.reverse, rest)
    else scanPlain (c :: acc) rest

/-- The token loop of `split` (`tests/runtest.c`): repeatedly apply
`nexttoken` and collect up to `budget` (`MAXTOKEN`) tokens, stopping at
the first `NULL` return.  `fuel` bounds the recursion; one unit is spent
per `nexttoken` call and every call consumes at least one character, so
any fuel of at least `l.length + 1` is exact. -/
def splitGo : Nat → Nat → List Char → List String
  | 0, _, _ => []
  | _ + 1, _, [] => []
  | fuel + 1, budget, c :: rest =>
    if budget == 0 then []
    else if cIsspace c then splitGo fuel budget rest
    else if c == '"' then
      match scanQuote '"' [] rest with
      | none => []
      | some (tok, rest') => String.mk tok :: splitGo fuel (budget - 1) rest'
    else if c == '\'' then
      match scanQuote '\'' [] rest with
      | none => []
      | some (tok, rest') => String.mk tok :: splitGo fuel (budget - 1) rest'
    else
      match scanPlain [] (c :: rest) with
      | none => []
      | some (tok, rest') => String.mk tok :: splitGo fuel (budget - 1) rest'

/-- `split` from `tests/runtest.c`: tokenize one input line. -/
def split (line : String) : List String :=
  splitGo (line.data.length + 1) MAXTOKEN line.data

/- ------------------------------------------------------------------ -/
/- The registry dispatch of doit (tests/runtest.c)                     -/
/- ------------------------------------------------------------------ -/

/-- The classification an operation mnemonic receives in the dispatch
chain at the end of `doit` (`tests/runtest.c`). -/
inductive Dispatch where
  /-- The mnemonic matched an `eqtoken` branch and a test-shape driver
  is invoked. -/
  | driver : Dispatch
  /-- The mnemonic matched one of the explicit empty branches
  (`get_*`, `rescale`): the line is skipped without any driver call. -/
  | softSkip : Dispatch
  /-- No branch matched: `mpd_err_fatal("%s: unknown operation: %s", ...)`
  is called, which prints a diagnostic and terminates the process. -/
  | unknownFatal : Dispatch
  deriving DecidableEq, Repr

/-- All operation mnemonics that the dispatch chain of `doit`
(`tests/runtest.c`) matches with `eqtoken` and sends to a test-shape
driver, in chain order (`MPD_CONFIG_64` build, non-legacy compiler). -/
def registryMnemonics : List String :=
  ["tosci", "apply", "toeng", "format", "class",
   "abs", "copy", "copyabs", "copynegate", "exp", "invert", "invroot",
   "ln", "log10", "logb", "minus", "nextminus", "nextplus", "plus",
   "reduce", "squareroot", "quantize_squareroot", "tointegral",
   "tointegralx", "floor", "ceil", "trunc",
   "samequantum", "samequantum_eq",
   "add", "and", "copysign", "divide", "divideint", "max", "maxmag",
   "max_mag", "min", "minmag", "min_mag", "multiply", "nexttoward", "or",
   "power", "quantize", "resc", "remainder", "remaindernear", "rotate",
   "scaleb", "shift", "subtract", "xor",
   "add_eq", "and_eq", "copysign_eq", "divide_eq", "divideint_eq",
   "max_eq", "maxmag_eq", "min_eq", "minmag_eq", "multiply_eq",
   "nexttoward_eq", "or_eq", "power_eq", "quantize_eq", "remainder_eq",
   "remaindernear_eq", "rotate_eq", "scaleb_eq", "shift_eq",
   "subtract_eq", "xor_eq",
   "divmod", "divmod_eq",
   "fma", "powmod", "fma_eq_eq_op", "powmod_eq_eq_op", "fma_eq_op_eq",
   "powmod_eq_op_eq", "fma_op_eq_eq", "powmod_op_eq_eq", "fma_eq_eq_eq",
   "powmod_eq_eq_eq",
   "compare", "comparesig", "comparetotal", "comparetotmag",
   "compare_eq", "comparesig_eq", "comparetotal_eq", "comparetotmag_eq",
   "shiftleft", "shiftright", "ln10", "baseconv",
   "get_uint64", "get_uint64_abs", "get_ssize64",
   "get_u64", "get_i64", "get_u32", "get_i32"]

/-- The dispatch chain at the end of `doit` (`tests/runtest.c`): an
`eqtoken` match on a registered mnemonic invokes a driver; the two
explicit empty branches (`startswith(token[1], "get_")` and
`eqtoken(token[1], "rescale")`) skip the line; everything else reaches
the final `else`, a fatal `unknown operation` error. -/
def doit_dispatch (m : String) : Dispatch :=
  if registryMnemonics.any fun s => eqtoken m s then Dispatch.driver
  else if startswith m "get_" then Dispatch.softSkip
  else if eqtoken m "rescale" then Dispatch.softSkip
  else Dispatch.unknownFatal

/-- A mnemonic the registry recognizes: either one of the driver
mnemonics, or one of the two recognized skip classes. -/
def recognizedMnemonic (m : String) : Bool :=
  (registryMnemonics.any fun s => eqtoken m s) || startswith m "get_" ||
    eqtoken m "rescale"

/- ------------------------------------------------------------------ -/
/- Allocator machinery from tests/test.c                               -/
/- ------------------------------------------------------------------ -/

/-- Which set of secondary allocation functions is installed in the
engine's allocation hooks (`tests/test.c`): the primary functions
(`malloc_ceil` family), the counting wrappers (`malloc_count` family),
or the failing wrappers (`malloc_fail` family). -/
inductive AllocMode where
  | normal : AllocMode
  | countMode : AllocMode
  | failMode : AllocMode
  deriving DecidableEq, Repr

/-- The allocator globals of `tests/test.c` and the `alloc_fail` loop
variable of `tests/runtest.c`: the installed mode, the `alloc_count`
call counter (counting mode), the `alloc_idx` call index and the
`alloc_fail` fail-at threshold (failure mode). -/
structure AllocGlobals where
  mode : AllocMode
  alloc_count : Nat
  alloc_idx : Nat
  alloc_fail : Nat
  deriving DecidableEq, Repr

/-- One allocation call under the installed allocators.  `normal` is the
`malloc_ceil` family: modelled from the spec as always succeeding (the
OS allocator is outside the harness).  `countMode` is `malloc_count`:
`++alloc_count`, then succeed.  `failMode` is `malloc_fail` from
`tests/test.c`: `if (++alloc_idx >= alloc_fail) return NULL;`. -/
def allocCall (g : AllocGlobals) : Bool × AllocGlobals :=
  match g.mode with
  | AllocMode.normal => (true, g)
  | AllocMode.countMode => (true, { g with alloc_count := g.alloc_count + 1 })
  | AllocMode.failMode =>
    let idx := g.alloc_idx + 1
    (!(idx ≥ g.alloc_fail), { g with alloc_idx := idx })

/-- `mpd_set_alloc_fail` from `tests/test.c`: when allocation-failure
checking was enabled at program start (`enable_check_alloc`), install the
failing allocators and reset `alloc_idx` to 0; otherwise do nothing at
all, leaving the currently installed allocation functions in place. -/
def mpd_set_alloc_fail (enable_check_alloc : Bool) (g : AllocGlobals) :
    AllocGlobals :=
  if enable_check_alloc then { g with mode := AllocMode.failMode, alloc_idx := 0 }
  else g

/-- `mpd_set_alloc` from `tests/test.c`: reinstall the primary
allocation functions. -/
def mpd_set_alloc (g : AllocGlobals) : AllocGlobals :=
  { g with mode := AllocMode.normal }

/-- `mpd_set_alloc_count` from `tests/test.c`: install the counting
allocators and reset `alloc_count` to 0. -/
def mpd_set_alloc_count (g : AllocGlobals) : AllocGlobals :=
  { g with mode := AllocMode.countMode, alloc_count := 0 }

/-- Modelled from the spec: one engine operation as observed through the
allocation hooks.  The engine itself (libmpdec) is not part of the
harness sources; §4.4 of the spec characterizes an operation by the
allocation calls it performs and by its recovery contract.  `needs` is
the number of allocation calls the operation performs on an
unconstrained run, `apply` its mathematical result on its operand, and
`okStatus` the status flags it accumulates when no allocation fails. -/
structure EngineOp where
  needs : Nat
  apply : Mpd → Mpd
  okStatus : Nat

/-- Modelled from the spec: the operation performs its allocation calls
in sequence through the installed hooks and aborts at the first failed
call.  Returns whether all calls succeeded, and the final allocator
state. -/
def engineRun : Nat → AllocGlobals → Bool × AllocGlobals
  | 0, g => (true, g)
  | n + 1, g =>
    let (ok, g') := allocCall g
    if ok then engineRun n g' else (false, g')

/-- The quiet-NaN sentinel value.  Modelled from the spec (§4.4): a
failed operation leaves its result in a quiet-NaN sentinel state.  The
C harness asserts `mpd_isnan` on it after every failing trial, and
`triple_cov` asserts `mpd_isqnan` on the same sentinel. -/
def qnanSentinel : Mpd := { flags := MPD_NAN, exp := 0, digits := 0, data := [] }

/-- The observable outcome of one fault-injection trial of a
decimal-result unary operation (`_Res_Op_Ctx`, `tests/runtest.c`):
the fail-at threshold used, the accumulated context status, the result
slot, and the operand slot (`tmp`, freshly copied from `op` before the
call) after the call. -/
structure Trial where
  threshold : Nat
  status : Nat
  result : Mpd
  tmp : Mpd
  deriving Repr

/-- One iteration body of the allocation-failure loop of `_Res_Op_Ctx`
(`tests/runtest.c`): copy the operand into `tmp`, clear the status, call
`mpd_set_alloc_fail`, run the operation, call `mpd_set_alloc`.  The
engine behaviour is modelled from the spec: if every allocation call
succeeds the operation stores `f.apply op` and accumulates `f.okStatus`;
if an allocation call fails the operation raises `MPD_Malloc_error`,
leaves the result slot in the quiet-NaN sentinel state and leaves its
operand untouched (§4.4, §7c). -/
def runTrial (f : EngineOp) (op : Mpd) (enable_check_alloc : Bool) (t : Nat) :
    Trial :=
  let g0 : AllocGlobals := ⟨AllocMode.normal, 0, 0, t⟩
  let g1 := mpd_set_alloc_fail enable_check_alloc g0
  let (ok, _) := engineRun f.needs g1
  if ok then ⟨t, f.okStatus, f.apply op, op⟩
  else ⟨t, MPD_Malloc_error, qnanSentinel, op⟩

/-- `INT_MAX` of the build (32-bit `int`). -/
def INT_MAX : Nat := 2147483647

/-- The allocation-failure loop of `_Res_Op_Ctx` (`tests/runtest.c`,
lines 1302-1321): `for (alloc_fail = 1; alloc_fail < INT_MAX;
alloc_fail += incr)`, breaking at the first trial whose status has no
`MPD_Malloc_error`; after a failing trial with `alloc_fail > accelAfter`
(100 in `_Res_Op_Ctx`, 50 in the other drivers) the step becomes
`(int)(alloc_count*0.02) + 1`, written here as `ac / 50 + 1` (exact for
the integer magnitudes involved; `ac` is the `alloc_count` of the
canonical counting run).  `fuel` bounds the recursion; the loop allows
at most `INT_MAX` iterations, so `faultLoop` passes fuel `INT_MAX`. -/
def faultLoopAux (f : EngineOp) (op : Mpd) (enable_check_alloc : Bool)
    (accelAfter ac : Nat) : Nat → Nat → Nat → List Trial
  | 0, _, _ => []
  | fuel + 1, t, incr =>
    if t < INT_MAX then
      let tr := runTrial f op enable_check_alloc t
      if tr.status &&& MPD_Malloc_error == 0 then [tr]
      else
        let incr2 := if accelAfter < t then ac / 50 + 1 else incr
        tr :: faultLoopAux f op enable_check_alloc accelAfter ac fuel (t + incr2) incr2
    else []

/-- The whole allocation-failure loop: thresholds start at 1 with step 1. -/
def faultLoop (f : EngineOp) (op : Mpd) (enable_check_alloc : Bool)
    (accelAfter ac : Nat) : List Trial :=
  faultLoopAux f op enable_check_alloc accelAfter ac INT_MAX 1 1

/-- Modelled from the spec: a paired-result binary engine operation
(shape of `mpd_divmod`), characterized like `EngineOp`. -/
structure EngineOp2 where
  needs : Nat
  apply1 : Mpd → Mpd → Mpd
  apply2 : Mpd → Mpd → Mpd
  okStatus : Nat

/-- The observable outcome of one fault-injection trial of a
paired-result binary operation (`_Binres_Binop_Ctx`, `tests/runtest.c`):
both result slots and both operand slots after the call. -/
structure Trial2 where
  threshold : Nat
  status : Nat
  result1 : Mpd
  result2 : Mpd
  tmp1 : Mpd
  tmp2 : Mpd
  deriving Repr

/-- One iteration body of the allocation-failure loop of
`_Binres_Binop_Ctx`: as `runTrial`, but with two operands and two result
slots; on a failed allocation both result slots are left in the sentinel
state (the source asserts `mpd_isnan(result1)` and
`mpd_isnan(result2)`). -/
def runTrial2 (f : EngineOp2) (op1 op2 : Mpd) (enable_check_alloc : Bool)
    (t : Nat) : Trial2 :=
  let g0 : AllocGlobals := ⟨AllocMode.normal, 0, 0, t⟩
  let g1 := mpd_set_alloc_fail enable_check_alloc g0
  let (ok, _) := engineRun f.needs g1
  if ok then ⟨t, f.okStatus, f.apply1 op1 op2, f.apply2 op1 op2, op1, op2⟩
  else ⟨t, MPD_Malloc_error, qnanSentinel, qnanSentinel, op1, op2⟩

/-- The allocation-failure loop of `_Binres_Binop_Ctx` (`tests/runtest.c`,
lines 1776-1799); the acceleration threshold there is 50. -/
def faultLoop2Aux (f : EngineOp2) (op1 op2 : Mpd) (enable_check_alloc : Bool)
    (accelAfter ac : Nat) : Nat → Nat → Nat → List Trial2
  | 0, _, _ => []
  | fuel + 1, t, incr =>
    if t < INT_MAX then
      let tr := runTrial2 f op1 op2 enable_check_alloc t
      if tr.status &&& MPD_Malloc_error == 0 then [tr]
      else
        let incr2 := if accelAfter < t then ac / 50 + 1 else incr
        tr :: faultLoop2Aux f op1 op2 enable_check_alloc accelAfter ac fuel (t + incr2) incr2
    else []

/-- The whole paired-result allocation-failure loop. -/
def faultLoop2 (f : EngineOp2) (op1 op2 : Mpd) (enable_check_alloc : Bool)
    (accelAfter ac : Nat) : List Trial2 :=
  faultLoop2Aux f op1 op2 enable_check_alloc accelAfter ac INT_MAX 1 1

/- ------------------------------------------------------------------ -/
/- The C++ harness's allocator machinery and fault loop                -/
/- ------------------------------------------------------------------ -/

/-- `UINT64_MAX`. -/
def UINT64_MAX : Nat := 18446744073709551615

/-- The thread-local allocator globals of `tests++/test.cc`: the
`alloc_idx` call index and the `alloc_fail` fail-at threshold.  The
failing allocators (`malloc_fail` family) are permanently installed in
that harness; `set_alloc` disarms them by setting `alloc_fail` to
`UINT64_MAX`. -/
structure AllocCppState where
  alloc_idx : Nat
  alloc_fail : Nat
  deriving DecidableEq, Repr

/-- `set_alloc_fail` from `tests++/test.cc`: when allocation-failure
checking was enabled at program start, set the context traps to
`MPD_Malloc_error`, reset `alloc_idx` to 0 and set `alloc_fail` to `n`;
otherwise do nothing at all. -/
def set_alloc_fail_cc (enable_check_alloc : Bool) (n : Nat)
    (g : AllocCppState) : AllocCppState :=
  if enable_check_alloc then ⟨0, n⟩ else g

/-- `set_alloc` from `tests++/test.cc`: reset `alloc_idx` and disarm the
fail threshold. -/
def set_alloc_cc (_g : AllocCppState) : AllocCppState := ⟨0, UINT64_MAX⟩

/-- Modelled from the spec: the engine operation performs its allocation
calls in sequence through `malloc_fail` of `tests++/test.cc`
(`if (++alloc_idx >= alloc_fail) return nullptr;`) and aborts at the
first failed call. -/
def engineRunCpp : Nat → AllocCppState → Bool × AllocCppState
  | 0, g => (true, g)
  | n + 1, g =>
    let idx := g.alloc_idx + 1
    if idx ≥ g.alloc_fail then (false, ⟨idx, g.alloc_fail⟩)
    else engineRunCpp n ⟨idx, g.alloc_fail⟩

/-- Modelled from the spec: a single-result binary engine operation as
driven by `Dec_DecDecCtx_RunSingle` (`tests++/runtest.cc`),
characterized like `EngineOp`. -/
structure EngineBinOp where
  needs : Nat
  apply : Mpd → Mpd → Mpd
  okStatus : Nat

/-- The observable outcome of one fault-injection trial of
`Dec_DecDecCtx_RunSingle` (`tests++/runtest.cc`): the fail-at threshold,
whether the trial raised the malloc condition (a `MallocError` exception,
since `set_alloc_fail` traps `MPD_Malloc_error`), and the result slot and
both operand slots after the trial. -/
structure TrialCpp where
  threshold : Nat
  failed : Bool
  result : Mpd
  tmp1 : Mpd
  tmp2 : Mpd
  deriving DecidableEq, Repr

/-- One iteration body of `Dec_DecDecCtx_RunSingle` (`tests++/runtest.cc`,
lines 1335-1361): copy the operands into `tmp1`/`tmp2`, save the current
result slot (`save_result`), clear the status, call `set_alloc_fail`,
run `result = (tmp1.*func)(tmp2, context)`.  On an allocation failure
the trapped `MPD_Malloc_error` raises a `MallocError` exception that
propagates before the assignment to `result`, so the result slot keeps
its pre-call value `resPrev`; the engine leaves the (const) operands
untouched (spec §4.4).  On success the result slot receives the
operation's output. -/
def runTrialCpp (f : EngineBinOp) (op1 op2 resPrev : Mpd)
    (enable_check_alloc : Bool) (n : Nat) : TrialCpp :=
  let g1 := set_alloc_fail_cc enable_check_alloc n ⟨0, UINT64_MAX⟩
  let (ok, _) := engineRunCpp f.needs g1
  if ok then ⟨n, false, f.apply op1 op2, op1, op2⟩
  else ⟨n, true, resPrev, op1, op2⟩

/-- The fault-injection loop of `Dec_DecDecCtx_RunSingle`
(`tests++/runtest.cc`): `for (uint64_t n = 1; n < UINT64_MAX-100;
n += incr)`, breaking at the first trial that completes without a
`MallocError`; after a failing trial with `n > 50` the step becomes
`rnd() % 100 + 1`, where the random source is threaded in as the oracle
`rnd` indexed by the threshold.  The result slot value is threaded from
one iteration to the next (`res`), since a failing trial leaves it
unassigned.  `fuel` bounds the recursion as in `faultLoopAux`. -/
def faultLoopCppAux (f : EngineBinOp) (op1 op2 : Mpd)
    (enable_check_alloc : Bool) (rnd : Nat → Nat) :
    Nat → Nat → Nat → Mpd → List TrialCpp
  | 0, _, _, _ => []
  | fuel + 1, n, incr, res =>
    if n < UINT64_MAX - 100 then
      let tr := runTrialCpp f op1 op2 res enable_check_alloc n
      if tr.failed then
        let incr2 := if 50 < n then rnd n % 100 + 1 else incr
        tr :: faultLoopCppAux f op1 op2 enable_check_alloc rnd fuel
          (n + incr2) incr2 tr.result
      else [tr]
    else []

/-- The whole `Dec_DecDecCtx_RunSingle` loop: thresholds start at 1 with
step 1; `r0` is the result slot's value on entry (in `Dec_DecDecCtx` the
output of the preceding unconstrained run, or a `mpd_init_rand` value). -/
def faultLoopCpp (f : EngineBinOp) (op1 op2 : Mpd)
    (enable_check_alloc : Bool) (rnd : Nat → Nat) (r0 : Mpd) :
    List TrialCpp :=
  faultLoopCppAux f op1 op2 enable_check_alloc rnd (UINT64_MAX - 100) 1 1 r0

/- ------------------------------------------------------------------ -/
/- The uint128 triple representation (round-trip tests)                -/
/- ------------------------------------------------------------------ -/

/-- `MPD_RADIX` of the 64-bit configuration: coefficient words hold 19
decimal digits. -/
def RADIX : Nat := 10 ^ 19

/-- `2^64`: the width of the `hi`/`lo` halves of a triple. -/
def W64 : Nat := 2 ^ 64

/-- `2^128`: a coefficient must fit in 128 bits to be representable in a
triple. -/
def W128 : Nat := 2 ^ 128

/-- The coefficient encoded by a word list (little-endian, base
`RADIX`). -/
def valOfWords : List Nat → Nat
  | [] => 0
  | w :: l => w + RADIX * valOfWords l

/-- Decompose a coefficient into its base-`RADIX` words; `fuel`-bounded
recursion (any fuel of at least `n` is exact, since the argument shrinks
by a factor `RADIX ≥ 2` per step). -/
def wordsOfValAux : Nat → Nat → List Nat
  | 0, _ => []
  | fuel + 1, n => if n == 0 then [] else n % RADIX :: wordsOfValAux fuel (n / RADIX)

/-- Base-`RADIX` word decomposition of a coefficient; `0` maps to `[]`. -/
def wordsOfVal (n : Nat) : List Nat := wordsOfValAux n n

/-- A canonical nonzero word list: nonempty, every word below `RADIX`,
most significant word nonzero. -/
def canonicalWords (l : List Nat) : Bool :=
  !l.isEmpty && l.all (· < RADIX) && l.getLast? != some 0

/-- Count of decimal digits; `0` has none (NaN payload convention). -/
def decDigitsAux : Nat → Nat → Nat
  | 0, _ => 0
  | fuel + 1, n => if n == 0 then 0 else decDigitsAux fuel (n / 10) + 1

/-- Count of decimal digits of a coefficient (`0 ↦ 0`). -/
def decDigits (n : Nat) : Nat := decDigitsAux n n

/-- The `digits` field of a finite decimal with coefficient `n`: the
value `0` still occupies one digit. -/
def digitsOfCoeff (n : Nat) : Nat := if n == 0 then 1 else decDigits n

/-- The `data` words of a finite decimal with coefficient `n`: the value
`0` is stored as the single word `0`. -/
def dataOfCoeff (n : Nat) : List Nat := if n == 0 then [0] else wordsOfVal n

/-- `enum mpd_triple_class` from the engine header (modelled from the
spec, §Glossary "Triple encoding"). -/
inductive TripleClass where
  | normalCls : TripleClass
  | infCls : TripleClass
  | qnanCls : TripleClass
  | snanCls : TripleClass
  | errorCls : TripleClass
  deriving DecidableEq, Repr

/-- `mpd_uint128_triple_t`: the fixed-width (tag, sign, hi, lo, exp)
representation (modelled from the spec, §Glossary). -/
structure UInt128Triple where
  tag : TripleClass
  sign : Nat
  hi : Nat
  lo : Nat
  exp : Int
  deriving DecidableEq, Repr

/-- The all-zero error triple.  `_TripleTest` in `tests/runtest.c`
asserts `sign == 0 && hi == 0 && lo == 0 && exp == 0` for the error
tag. -/
def errorTriple : UInt128Triple := ⟨TripleClass.errorCls, 0, 0, 0, 0⟩

/-- The modelled validity window for the exponent of a normal triple.
`mpd_from_uint128_triple` rejects out-of-range exponents with
`MPD_Conversion_syntax` (`triple_cov` in `tests/runtest.c` asserts this
for `INT64_MAX`, `INT64_MIN` and beyond). -/
def expValid (e : Int) : Bool :=
  -999999999999999999 ≤ e && e ≤ 999999999999999999

/-- Modelled from the spec: `mpd_as_uint128_triple` (the engine's triple
encoder is not under the harness sources).  The tag mirrors the value's
class, the sign its sign bit, `hi`/`lo` the coefficient split at 64
bits, and the exponent is carried for normal values and 0 for specials
(`_TripleTest` asserts `exp == 0` for NaN and infinity tags).  A
coefficient that does not fit in 128 bits yields the error triple. -/
def mpd_as_uint128_triple (a : Mpd) : UInt128Triple :=
  let n := valOfWords a.data
  let sign := a.flags &&& MPD_NEG
  if a.flags &&& MPD_SNAN != 0 then
    if n < W128 then ⟨TripleClass.snanCls, sign, n / W64, n % W64, 0⟩ else errorTriple
  else if a.flags &&& MPD_NAN != 0 then
    if n < W128 then ⟨TripleClass.qnanCls, sign, n / W64, n % W64, 0⟩ else errorTriple
  else if a.flags &&& MPD_INF != 0 then
    ⟨TripleClass.infCls, sign, 0, 0, 0⟩
  else
    if n < W128 then ⟨TripleClass.normalCls, sign, n / W64, n % W64, a.exp⟩ else errorTriple

/-- Modelled from the spec: `mpd_from_uint128_triple` (the engine's
triple decoder is not under the harness sources).  Returns the decoded
value, the `int` return value and the status.  An invalid triple — the
error tag, an out-of-range sign, or an out-of-range exponent on a normal
tag — sets the result to the quiet-NaN sentinel, the status to
`MPD_Conversion_syntax` and returns -1; this error behaviour is pinned
by the harness's own assertions (`triple_cov` in `tests/runtest.c`
asserts `status == MPD_Conversion_syntax` and `mpd_isqnan`). -/
def mpd_from_uint128_triple (t : UInt128Triple) : Mpd × Int × Nat :=
  let n := t.hi * W64 + t.lo
  match t.tag with
  | TripleClass.qnanCls =>
    if t.sign ≤ 1 then
      (⟨MPD_NAN ||| t.sign, 0, decDigits n, wordsOfVal n⟩, 0, 0)
    else (qnanSentinel, -1, MPD_Conversion_syntax)
  | TripleClass.snanCls =>
    if t.sign ≤ 1 then
      (⟨MPD_SNAN ||| t.sign, 0, decDigits n, wordsOfVal n⟩, 0, 0)
    else (qnanSentinel, -1, MPD_Conversion_syntax)
  | TripleClass.infCls =>
    if t.sign ≤ 1 then
      (⟨MPD_INF ||| t.sign, 0, 0, []⟩, 0, 0)
    else (qnanSentinel, -1, MPD_Conversion_syntax)
  | TripleClass.normalCls =>
    if t.sign ≤ 1 && expValid t.exp then
      (⟨t.sign, t.exp, digitsOfCoeff n, dataOfCoeff n⟩, 0, 0)
    else (qnanSentinel, -1, MPD_Conversion_syntax)
  | TripleClass.errorCls => (qnanSentinel, -1, MPD_Conversion_syntax)

/-- A well-formed decimal as produced by the engine for the harness's
operands (modelled from the spec, §3 DecimalValue): only the sign and
class bits may be set in `flags`, at most one class bit is set, special
values have exponent 0, infinities carry no payload, and the coefficient
words are canonical with `digits` matching the coefficient. -/
def wellFormed (a : Mpd) : Bool :=
  let cls := a.flags &&& (MPD_INF ||| MPD_NAN ||| MPD_SNAN)
  (a.flags &&& (MPD_NEG ||| MPD_INF ||| MPD_NAN ||| MPD_SNAN) == a.flags) &&
  (cls == 0 || cls == MPD_INF || cls == MPD_NAN || cls == MPD_SNAN) &&
  (if cls == MPD_INF then
     a.data == ([] : List Nat) && a.digits == 0 && a.exp == 0
   else if cls == 0 then
     (a.data == [0] || canonicalWords a.data) &&
       a.digits == digitsOfCoeff (valOfWords a.data) && expValid a.exp
   else
     (a.data == ([] : List Nat) || canonicalWords a.data) &&
       a.digits == decDigits (valOfWords a.data) && a.exp == 0)

/- ------------------------------------------------------------------ -/
/- Helper lemmas: allocator runs                                       -/
/- ------------------------------------------------------------------ -/

theorem engineRun_normal (n c i t : Nat) :
    engineRun n ⟨AllocMode.normal, c, i, t⟩ = (true, ⟨AllocMode.normal, c, i, t⟩) := by
  induction n with
  | zero => rfl
  | succ n ih => simpa [engineRun, allocCall] using ih

theorem engineRun_count (n : Nat) : ∀ c i t : Nat,
    engineRun n ⟨AllocMode.countMode, c, i, t⟩ =
      (true, ⟨AllocMode.countMode, c + n, i, t⟩) := by
  induction n with
  | zero => intro c i t; rfl
  | succ n ih =>
    intro c i t
    simp only [engineRun, allocCall]
    rw [ih (c + 1) i t]
    have hc : c + 1 + n = c + (n + 1) := by omega
    rw [hc]
    simp

theorem engineRun_fail_fst (n : Nat) : ∀ c i t : Nat,
    (engineRun n ⟨AllocMode.failMode, c, i, t⟩).1 =
      (decide (n = 0) || decide (i + n < t)) := by
  induction n with
  | zero => intro c i t; rfl
  | succ n ih =>
    intro c i t
    by_cases h : i + 1 ≥ t
    · have h2 : ¬ (i + (n + 1) < t) := by omega
      simp [engineRun, allocCall, h, h2]
    · have h2 : (i + 1) + n = i + (n + 1) := by omega
      simp only [engineRun, allocCall]
      rw [show (!decide (i + 1 ≥ t)) = true by simp [h]]
      simp only [if_true, ih c (i + 1) t, h2]
      by_cases hn : n = 0
      · subst hn
        have h3 : i + (0 + 1) < t := by omega
        simp [h3]
      · have h4 : ¬ (n + 1 = 0) := by omega
        simp [hn, h4]

/- ------------------------------------------------------------------ -/
/- Helper lemmas: single trials                                        -/
/- ------------------------------------------------------------------ -/

theorem runTrial_disabled (f : EngineOp) (op : Mpd) (t : Nat) :
    runTrial f op false t = ⟨t, f.okStatus, f.apply op, op⟩ := by
  unfold runTrial mpd_set_alloc_fail
  simp [engineRun_normal]

theorem runTrial_enabled_fail (f : EngineOp) (op : Mpd) (t : Nat)
    (h1 : 1 ≤ t) (h2 : t ≤ f.needs) :
    runTrial f op true t = ⟨t, MPD_Malloc_error, qnanSentinel, op⟩ := by
  have hfst := engineRun_fail_fst f.needs 0 0 t
  rcases hr : engineRun f.needs ⟨AllocMode.failMode, 0, 0, t⟩ with ⟨ok, g⟩
  rw [hr] at hfst
  simp only at hfst
  have hok : ok = false := by
    rw [hfst]; simp; omega
  subst hok
  unfold runTrial mpd_set_alloc_fail
  simp [hr]

theorem runTrial_enabled_ok (f : EngineOp) (op : Mpd) (t : Nat)
    (h : f.needs < t) :
    runTrial f op true t = ⟨t, f.okStatus, f.apply op, op⟩ := by
  have hfst := engineRun_fail_fst f.needs 0 0 t
  rcases hr : engineRun f.needs ⟨AllocMode.failMode, 0, 0, t⟩ with ⟨ok, g⟩
  rw [hr] at hfst
  simp only at hfst
  have hok : ok = true := by
    rw [hfst]
    simp
    omega
  subst hok
  unfold runTrial mpd_set_alloc_fail
  simp [hr]

theorem runTrial_or (f : EngineOp) (op : Mpd) (e : Bool) (t : Nat) :
    runTrial f op e t = ⟨t, f.okStatus, f.apply op, op⟩ ∨
    runTrial f op e t = ⟨t, MPD_Malloc_error, qnanSentinel, op⟩ := by
  unfold runTrial
  rcases hr : engineRun f.needs (mpd_set_alloc_fail e ⟨AllocMode.normal, 0, 0, t⟩) with ⟨ok, g⟩
  cases ok
  · right; simp [hr]
  · left; simp [hr]

theorem runTrial2_or (f : EngineOp2) (op1 op2 : Mpd) (e : Bool) (t : Nat) :
    runTrial2 f op1 op2 e t =
      ⟨t, f.okStatus, f.apply1 op1 op2, f.apply2 op1 op2, op1, op2⟩ ∨
    runTrial2 f op1 op2 e t =
      ⟨t, MPD_Malloc_error, qnanSentinel, qnanSentinel, op1, op2⟩ := by
  unfold runTrial2
  rcases hr : engineRun f.needs (mpd_set_alloc_fail e ⟨AllocMode.normal, 0, 0, t⟩) with ⟨ok, g⟩
  cases ok
  · right; simp [hr]
  · left; simp [hr]

theorem malloc_bit_self : MPD_Malloc_error &&& MPD_Malloc_error ≠ 0 := by decide

/- ------------------------------------------------------------------ -/
/- Helper lemmas: fault-injection loops                                -/
/- ------------------------------------------------------------------ -/

theorem malloc_self_ne : (MPD_Malloc_error &&& MPD_Malloc_error == 0) = false := by
  decide

theorem faultLoopAux_succ_eq (f : EngineOp) (op : Mpd) (e : Bool)
    (aA ac fuel t incr : Nat) :
    faultLoopAux f op e aA ac (fuel + 1) t incr =
      if t < INT_MAX then
        (if (runTrial f op e t).status &&& MPD_Malloc_error == 0 then
          [runTrial f op e t]
        else
          runTrial f op e t ::
            faultLoopAux f op e aA ac fuel
              (t + (if aA < t then ac / 50 + 1 else incr))
              (if aA < t then ac / 50 + 1 else incr))
      else [] := rfl

theorem faultLoop2Aux_succ_eq (f : EngineOp2) (op1 op2 : Mpd) (e : Bool)
    (aA ac fuel t incr : Nat) :
    faultLoop2Aux f op1 op2 e aA ac (fuel + 1) t incr =
      if t < INT_MAX then
        (if (runTrial2 f op1 op2 e t).status &&& MPD_Malloc_error == 0 then
          [runTrial2 f op1 op2 e t]
        else
          runTrial2 f op1 op2 e t ::
            faultLoop2Aux f op1 op2 e aA ac fuel
              (t + (if aA < t then ac / 50 + 1 else incr))
              (if aA < t then ac / 50 + 1 else incr))
      else [] := rfl

theorem faultLoopAux_inv (f : EngineOp) (op : Mpd) (e : Bool) (aA ac : Nat)
    (hok : f.okStatus &&& MPD_Malloc_error = 0) :
    ∀ fuel t incr, ∀ tr ∈ faultLoopAux f op e aA ac fuel t incr,
      tr.status &&& MPD_Malloc_error ≠ 0 →
      tr.status = MPD_Malloc_error ∧ tr.result = qnanSentinel ∧ tr.tmp = op := by
  intro fuel
  induction fuel with
  | zero => intro t incr tr htr; simp [faultLoopAux] at htr
  | succ fuel ih =>
    intro t incr tr htr hm
    rw [faultLoopAux_succ_eq] at htr
    by_cases hI : t < INT_MAX
    · rw [if_pos hI] at htr
      by_cases hs : (runTrial f op e t).status &&& MPD_Malloc_error == 0
      · rw [if_pos hs] at htr
        simp only [List.mem_singleton] at htr
        subst htr
        simp only [beq_iff_eq] at hs
        exact absurd hs hm
      · rw [if_neg hs] at htr
        simp only [List.mem_cons] at htr
        rcases htr with rfl | htr
        · rcases runTrial_or f op e t with hcase | hcase
          · rw [hcase] at hs
            simp [hok] at hs
          · rw [hcase]
            exact ⟨rfl, rfl, rfl⟩
        · exact ih _ _ tr htr hm
    · rw [if_neg hI] at htr
      simp at htr

theorem faultLoop2Aux_inv (f : EngineOp2) (op1 op2 : Mpd) (e : Bool) (aA ac : Nat)
    (hok : f.okStatus &&& MPD_Malloc_error = 0) :
    ∀ fuel t incr, ∀ tr ∈ faultLoop2Aux f op1 op2 e aA ac fuel t incr,
      tr.status &&& MPD_Malloc_error ≠ 0 →
      tr.status = MPD_Malloc_error ∧ tr.result1 = qnanSentinel ∧
        tr.result2 = qnanSentinel ∧ tr.tmp1 = op1 ∧ tr.tmp2 = op2 := by
  intro fuel
  induction fuel with
  | zero => intro t incr tr htr; simp [faultLoop2Aux] at htr
  | succ fuel ih =>
    intro t incr tr htr hm
    rw [faultLoop2Aux_succ_eq] at htr
    by_cases hI : t < INT_MAX
    · rw [if_pos hI] at htr
      by_cases hs : (runTrial2 f op1 op2 e t).status &&& MPD_Malloc_error == 0
      · rw [if_pos hs] at htr
        simp only [List.mem_singleton] at htr
        subst htr
        simp only [beq_iff_eq] at hs
        exact absurd hs hm
      · rw [if_neg hs] at htr
        simp only [List.mem_cons] at htr
        rcases htr with rfl | htr
        · rcases runTrial2_or f op1 op2 e t with hcase | hcase
          · rw [hcase] at hs
            simp [hok] at hs
          · rw [hcase]
            exact ⟨rfl, rfl, rfl, rfl, rfl⟩
        · exact ih _ _ tr htr hm
    · rw [if_neg hI] at htr
      simp at htr

theorem faultLoopAux_shape (f : EngineOp) (op : Mpd) (aA ac : Nat)
    (hok : f.okStatus &&& MPD_Malloc_error = 0) (hA : f.needs ≤ aA)
    (hN : f.needs + 1 < INT_MAX) :
    ∀ fuel t, 1 ≤ t → t ≤ f.needs + 1 → f.needs + 2 - t ≤ fuel →
      faultLoopAux f op true aA ac fuel t 1 =
        ((List.range' t (f.needs + 1 - t)).map fun k =>
          (⟨k, MPD_Malloc_error, qnanSentinel, op⟩ : Trial)) ++
          [⟨f.needs + 1, f.okStatus, f.apply op, op⟩] := by
  intro fuel
  induction fuel with
  | zero => intro t h1 h2 h3; omega
  | succ fuel ih =>
    intro t h1 h2 h3
    have hI : t < INT_MAX := by omega
    rcases Nat.lt_or_ge f.needs t with hgt | hle
    · -- t = f.needs + 1: the trial succeeds and the loop breaks
      have ht : t = f.needs + 1 := by omega
      simp only [faultLoopAux, hI, if_true,
        runTrial_enabled_ok f op t hgt, hok, beq_self_eq_true]
      subst ht
      simp
    · -- t ≤ f.needs: the trial fails and the loop continues with step 1
      have hfail := runTrial_enabled_fail f op t h1 hle
      have hacc : ¬ (aA < t) := by omega
      simp only [faultLoopAux, hI, if_true, hfail, malloc_self_ne,
        Bool.false_eq_true, if_false, hacc]
      rw [ih (t + 1) (by omega) (by omega) (by omega)]
      have hn : f.needs + 1 - t = (f.needs - t) + 1 := by omega
      rw [hn, List.range'_succ]
      simp only [List.map_cons, List.cons_append]
      have hn2 : f.needs + 1 - (t + 1) = f.needs - t := by omega
      rw [hn2]

theorem faultLoop_shape (f : EngineOp) (op : Mpd) (aA ac : Nat)
    (hok : f.okStatus &&& MPD_Malloc_error = 0) (hA : f.needs ≤ aA)
    (hN : f.needs + 1 < INT_MAX) :
    faultLoop f op true aA ac =
      ((List.range' 1 f.needs).map fun k =>
        (⟨k, MPD_Malloc_error, qnanSentinel, op⟩ : Trial)) ++
        [⟨f.needs + 1, f.okStatus, f.apply op, op⟩] := by
  unfold faultLoop
  rw [faultLoopAux_shape f op aA ac hok hA hN INT_MAX 1 (by omega) (by omega)
    (by unfold INT_MAX at hN ⊢; omega)]
  simp

theorem faultLoop_disabled (f : EngineOp) (op : Mpd) (aA ac : Nat)
    (hok : f.okStatus &&& MPD_Malloc_error = 0) :
    faultLoop f op false aA ac = [⟨1, f.okStatus, f.apply op, op⟩] := by
  unfold faultLoop
  rw [show INT_MAX = 2147483646 + 1 from by norm_num [INT_MAX]]
  rw [faultLoopAux_succ_eq]
  have h1 : (1 : Nat) < INT_MAX := by norm_num [INT_MAX]
  rw [if_pos h1, runTrial_disabled]
  simp [hok]

theorem faultLoopCppAux_succ_eq (f : EngineBinOp) (op1 op2 : Mpd)
    (e : Bool) (rnd : Nat → Nat) (fuel n incr : Nat) (res : Mpd) :
    faultLoopCppAux f op1 op2 e rnd (fuel + 1) n incr res =
      if n < UINT64_MAX - 100 then
        (if (runTrialCpp f op1 op2 res e n).failed then
          runTrialCpp f op1 op2 res e n ::
            faultLoopCppAux f op1 op2 e rnd fuel
              (n + (if 50 < n then rnd n % 100 + 1 else incr))
              (if 50 < n then rnd n % 100 + 1 else incr)
              (runTrialCpp f op1 op2 res e n).result
        else [runTrialCpp f op1 op2 res e n])
      else [] := rfl

theorem runTrialCpp_or (f : EngineBinOp) (op1 op2 res : Mpd) (e : Bool)
    (n : Nat) :
    runTrialCpp f op1 op2 res e n = ⟨n, false, f.apply op1 op2, op1, op2⟩ ∨
    runTrialCpp f op1 op2 res e n = ⟨n, true, res, op1, op2⟩ := by
  unfold runTrialCpp
  rcases hr : engineRunCpp f.needs (set_alloc_fail_cc e n ⟨0, UINT64_MAX⟩)
    with ⟨ok, g⟩
  cases ok
  · right; simp [hr]
  · left; simp [hr]

theorem faultLoopCppAux_inv (f : EngineBinOp) (op1 op2 : Mpd) (e : Bool)
    (rnd : Nat → Nat) :
    ∀ fuel n incr res, ∀ tr ∈ faultLoopCppAux f op1 op2 e rnd fuel n incr res,
      tr.failed = true →
      tr.result = res ∧ tr.tmp1 = op1 ∧ tr.tmp2 = op2 := by
  intro fuel
  induction fuel with
  | zero => intro n incr res tr htr; simp [faultLoopCppAux] at htr
  | succ fuel ih =>
    intro n incr res tr htr hm
    rw [faultLoopCppAux_succ_eq] at htr
    by_cases hI : n < UINT64_MAX - 100
    · rw [if_pos hI] at htr
      by_cases hs : (runTrialCpp f op1 op2 res e n).failed = true
      · rw [if_pos hs] at htr
        simp only [List.mem_cons] at htr
        rcases htr with rfl | htr
        · rcases runTrialCpp_or f op1 op2 res e n with hcase | hcase
          · rw [hcase] at hs
            simp at hs
          · rw [hcase]
            exact ⟨rfl, rfl, rfl⟩
        · rcases runTrialCpp_or f op1 op2 res e n with hcase | hcase
          · rw [hcase] at hs
            simp at hs
          · rw [hcase] at htr
            exact ih _ _ _ tr htr hm
      · rw [if_neg hs] at htr
        simp only [List.mem_singleton] at htr
        subst htr
        exact absurd hm hs
    · rw [if_neg hI] at htr
      simp at htr

/- ------------------------------------------------------------------ -/
/- Helper lemmas: base-RADIX word decomposition                        -/
/- ------------------------------------------------------------------ -/

theorem RADIX_pos : 0 < RADIX := by norm_num [RADIX]

theorem RADIX_one_lt : 1 < RADIX := by norm_num [RADIX]

theorem wordsOfValAux_zero (fuel : Nat) : wordsOfValAux fuel 0 = [] := by
  cases fuel <;> simp [wordsOfValAux]

theorem wordsOfValAux_irrel (f1 : Nat) : ∀ f2 n : Nat, n ≤ f1 → n ≤ f2 →
    wordsOfValAux f1 n = wordsOfValAux f2 n := by
  induction f1 with
  | zero =>
    intro f2 n h1 h2
    have hn : n = 0 := by omega
    subst hn
    rw [wordsOfValAux_zero, wordsOfValAux_zero]
  | succ f1 ih =>
    intro f2 n h1 h2
    by_cases hn : n = 0
    · subst hn
      rw [wordsOfValAux_zero, wordsOfValAux_zero]
    · rcases f2 with _ | f2
      · omega
      · have hb : (n == 0) = false := by simp [hn]
        simp only [wordsOfValAux, hb, Bool.false_eq_true, if_false]
        have hd : n / RADIX < n := Nat.div_lt_self (by omega) RADIX_one_lt
        rw [ih f2 (n / RADIX) (by omega) (by omega)]

theorem wordsOfVal_step (n : Nat) (h : n ≠ 0) :
    wordsOfVal n = n % RADIX :: wordsOfVal (n / RADIX) := by
  unfold wordsOfVal
  rcases n with _ | m
  · omega
  · have hb : (m + 1 == 0) = false := by simp
    conv_lhs => rw [wordsOfValAux]
    simp only [hb, Bool.false_eq_true, if_false]
    have hd : (m + 1) / RADIX < m + 1 := Nat.div_lt_self (by omega) RADIX_one_lt
    rw [wordsOfValAux_irrel m ((m + 1) / RADIX) ((m + 1) / RADIX) (by omega) (by omega)]

theorem canonicalWords_tail (w x : Nat) (l : List Nat)
    (h : canonicalWords (w :: x :: l) = true) : canonicalWords (x :: l) = true := by
  simp only [canonicalWords, Bool.and_eq_true, List.all_cons, List.isEmpty_cons,
    Bool.not_eq_true'] at h ⊢
  obtain ⟨⟨hne, hall⟩, hlast⟩ := h
  refine ⟨⟨trivial, ?_⟩, ?_⟩
  · exact hall.2
  · rw [List.getLast?_cons_cons] at hlast
    exact hlast

theorem valOfWords_pos : ∀ l : List Nat, canonicalWords l = true → 0 < valOfWords l := by
  intro l
  induction l with
  | nil => intro h; simp [canonicalWords] at h
  | cons w l ih =>
    intro h
    rcases l with _ | ⟨x, l'⟩
    · have hw : w ≠ 0 := by
        simp only [canonicalWords, List.getLast?_singleton] at h
        simp only [Bool.and_eq_true, bne_iff_ne, ne_eq, Option.some.injEq] at h
        exact h.2
      simp only [valOfWords]
      omega
    · have hv := ih (canonicalWords_tail w x l' h)
      simp only [valOfWords] at hv ⊢
      have := RADIX_pos
      nlinarith

theorem words_val : ∀ l : List Nat, canonicalWords l = true →
    wordsOfVal (valOfWords l) = l := by
  intro l
  induction l with
  | nil => intro h; simp [canonicalWords] at h
  | cons w l ih =>
    intro h
    have hw : w < RADIX := by
      simp only [canonicalWords, Bool.and_eq_true, List.all_cons,
        decide_eq_true_eq] at h
      exact h.1.2.1
    rcases l with _ | ⟨x, l'⟩
    · have hwne : w ≠ 0 := by
        simp only [canonicalWords, List.getLast?_singleton] at h
        simp only [Bool.and_eq_true, bne_iff_ne, ne_eq, Option.some.injEq] at h
        exact h.2
      have hval : valOfWords [w] = w := by simp [valOfWords]
      rw [hval, wordsOfVal_step w hwne, Nat.mod_eq_of_lt hw,
        Nat.div_eq_of_lt hw, wordsOfVal]
      rw [wordsOfValAux_zero]
    · have htail := canonicalWords_tail w x l' h
      have hv := valOfWords_pos (x :: l') htail
      have hne : w + RADIX * valOfWords (x :: l') ≠ 0 := by
        have := RADIX_pos
        nlinarith
      have hstep : valOfWords (w :: x :: l') = w + RADIX * valOfWords (x :: l') := rfl
      rw [hstep, wordsOfVal_step _ hne]
      have hmod : (w + RADIX * valOfWords (x :: l')) % RADIX = w := by
        rw [Nat.add_mul_mod_self_left, Nat.mod_eq_of_lt hw]
      have hdiv : (w + RADIX * valOfWords (x :: l')) / RADIX = valOfWords (x :: l') := by
        rw [Nat.add_mul_div_left _ _ RADIX_pos, Nat.div_eq_of_lt hw, Nat.zero_add]
      rw [hmod, hdiv, ih htail]

theorem hi_lo_recompose (n : Nat) : n / W64 * W64 + n % W64 = n := by
  rw [Nat.mul_comm]
  exact Nat.div_add_mod n W64

/- ------------------------------------------------------------------ -/
/- Tokenizer helper equation                                           -/
/- ------------------------------------------------------------------ -/

theorem splitGo_succ_cons (fuel budget : Nat) (c : Char) (l : List Char) :
    splitGo (fuel + 1) budget (c :: l) =
      if budget == 0 then []
      else if cIsspace c then splitGo fuel budget l
      else if c == '"' then
        match scanQuote '"' [] l with
        | none => []
        | some (tok, rest') => String.mk tok :: splitGo fuel (budget - 1) rest'
      else if c == '\'' then
        match scanQuote '\'' [] l with
        | none => []
        | some (tok, rest') => String.mk tok :: splitGo fuel (budget - 1) rest'
      else
        match scanPlain [] (c :: l) with
        | none => []
        | some (tok, rest') => String.mk tok :: splitGo fuel (budget - 1) rest' := rfl

/- ------------------------------------------------------------------ -/
/- Claim theorems                                                      -/
/- ------------------------------------------------------------------ -/

/-- C3: the status reconciler `compare_expected` reports a failure if and
only if the computed string differs from the expected string or the
accumulated status bitset differs from the expected bitset, except when
the triple (test id, computed string, expected string) matches a
ULP-deviation override entry — consulted only when the context's `allcr`
flag is 0 — or the triple (test id, computed status, expected status)
matches a status-deviation override entry, in which case no failure is
reported. -/
theorem c3_reconciler_failure_iff (calcStr expectedStr : String)
    (expected_status : Nat) (id : String) (allcr status : Nat) :
    reportsFailure (compare_expected calcStr expectedStr expected_status id
        allcr status) = true ↔
      ((calcStr ≠ expectedStr ∨ status ≠ expected_status) ∧
        ¬(allcr = 0 ∧ ulpMatch id calcStr expectedStr = true) ∧
        ¬(statusMatch id expected_status status = true)) := by
  unfold compare_expected reportsFailure
  by_cases h1 : (allcr == 0 && ulpMatch id calcStr expectedStr) = true
  · rw [if_pos h1]
    simp only [Bool.and_eq_true, beq_iff_eq] at h1
    simp [h1]
  · rw [if_neg h1]
    by_cases h2 : statusMatch id expected_status status = true
    · rw [if_pos h2]
      simp [h2]
    · rw [if_neg h2]
      have hA : ¬(allcr = 0 ∧ ulpMatch id calcStr expectedStr = true) := by
        intro hand
        exact h1 (by simp [hand.1, hand.2])
      simp only [Bool.or_eq_true, bne_iff_ne, ne_eq]
      tauto

/-- C4 counterexample: at the concrete input
`expstatus = MPD_Invalid_operation`,
`status = MPD_Division_impossible ||| MPD_Division_undefined`, the
computed status contains `Division_undefined`, yet `resolve_status_hack`
narrows the expected status to `MPD_Division_impossible` (hack #1 fires
first and removes the `Invalid_operation` bit that hack #2 tests), not to
`MPD_Division_undefined` as the claim requires. -/
theorem c4_counterexample :
    ¬ (MPD_Invalid_operation &&& MPD_Invalid_operation ≠ 0 →
       (MPD_Division_impossible ||| MPD_Division_undefined) &&&
         MPD_Division_undefined ≠ 0 →
       resolve_status_hack MPD_Invalid_operation
         (MPD_Division_impossible ||| MPD_Division_undefined) =
         MPD_Division_undefined) := by
  decide

/-- C4 (amended): if the expected status contains the generic
`Invalid_operation` condition and the computed status contains
`Division_impossible`, the expected status used for all subsequent
comparisons is exactly `MPD_Division_impossible`; if the computed status
contains `Division_undefined` but not `Division_impossible`, it is
exactly `MPD_Division_undefined` (hack #1 takes precedence when both
specific conditions are present). -/
theorem c4_status_hack_amended (expstatus status : Nat) :
    (expstatus &&& MPD_Invalid_operation ≠ 0 →
      status &&& MPD_Division_impossible ≠ 0 →
      resolve_status_hack expstatus status = MPD_Division_impossible) ∧
    (expstatus &&& MPD_Invalid_operation ≠ 0 →
      status &&& MPD_Division_undefined ≠ 0 →
      status &&& MPD_Division_impossible = 0 →
      resolve_status_hack expstatus status = MPD_Division_undefined) := by
  constructor
  · intro h1 h2
    unfold resolve_status_hack
    have he1 : (if expstatus &&& MPD_Invalid_operation ≠ 0 ∧
        status &&& MPD_Division_impossible ≠ 0 then MPD_Division_impossible
        else expstatus) = MPD_Division_impossible := if_pos ⟨h1, h2⟩
    rw [he1]
    have hno : ¬ (MPD_Division_impossible &&& MPD_Invalid_operation ≠ 0 ∧
        status &&& MPD_Division_undefined ≠ 0) := by
      rintro ⟨ha, -⟩
      exact ha (by decide)
    rw [if_neg hno]
  · intro h1 h2 h3
    unfold resolve_status_hack
    have hno1 : ¬ (expstatus &&& MPD_Invalid_operation ≠ 0 ∧
        status &&& MPD_Division_impossible ≠ 0) := by
      rintro ⟨-, hb⟩
      exact hb h3
    have he1 : (if expstatus &&& MPD_Invalid_operation ≠ 0 ∧
        status &&& MPD_Division_impossible ≠ 0 then MPD_Division_impossible
        else expstatus) = expstatus := if_neg hno1
    rw [he1, if_pos ⟨h1, h2⟩]

/-- C4 witness: the two narrowings at concrete inputs. -/
theorem c4_status_hack_amended_witness :
    resolve_status_hack MPD_Invalid_operation MPD_Division_impossible =
      MPD_Division_impossible ∧
    resolve_status_hack MPD_Invalid_operation MPD_Division_undefined =
      MPD_Division_undefined :=
  ⟨(c4_status_hack_amended MPD_Invalid_operation MPD_Division_impossible).1
      (by decide) (by decide),
   (c4_status_hack_amended MPD_Invalid_operation MPD_Division_undefined).2
      (by decide) (by decide) (by decide)⟩

/-- C6 counterexample: two values differing only in the exponent fail
`equalmem`, and the C harness's `check_equalmem` reports the violation
but leaves `file_failure` at 0 — the violation is not recorded against
the file's pass/fail state; moreover the C++ harness raises it as an
exception (`test::Failure` via `err_token`), contrary to the claim. -/
theorem c6_counterexample :
    equalmem ⟨0, 1, 1, [1]⟩ ⟨0, 0, 1, [1]⟩ = false ∧
    (check_equalmem ⟨0, 1, 1, [1]⟩ ⟨0, 0, 1, [1]⟩ "addx001"
        ⟨0, 0⟩).2.file_failure = 0 ∧
    check_equalmemCpp "addx001" ⟨0, 1, 1, [1]⟩ ⟨0, 0, 1, [1]⟩ =
      Except.error "addx001: const arg changed" := by
  refine ⟨by decide, by decide, rfl⟩

/-- C6 (amended): a changed-operand violation is reported as a
"const arg changed" failure tied to the test id.  In the C harness it is
printed to stderr and execution continues (no exception), but the
file's pass/fail state is left unchanged — the violation is not recorded
there.  In the C++ harness it is raised as a `test::Failure` exception,
which `do_file` catches and records as the stream's status. -/
theorem c6_const_arg_amended (a b : Mpd) (id : String) (st : CFileState)
    (h : equalmem a b = false) (h2 : equalmemCpp a b = false) :
    check_equalmem a b id st = (some ("FAIL: const arg changed: " ++ id), st) ∧
    check_equalmemCpp id a b = Except.error (id ++ ": const arg changed") ∧
    do_file_status (check_equalmemCpp id a b) = id ++ ": const arg changed" := by
  refine ⟨?_, ?_, ?_⟩ <;>
    simp [check_equalmem, check_equalmemCpp, do_file_status, h, h2]

/-- C6 witness: the amended behaviour at a concrete unequal pair. -/
theorem c6_const_arg_amended_witness :
    equalmem ⟨0, 1, 1, [1]⟩ ⟨0, 0, 1, [1]⟩ = false ∧
    equalmemCpp ⟨0, 1, 1, [1]⟩ ⟨0, 0, 1, [1]⟩ = false ∧
    (check_equalmem ⟨0, 1, 1, [1]⟩ ⟨0, 0, 1, [1]⟩ "cmpx010" ⟨0, 0⟩ =
        (some ("FAIL: const arg changed: " ++ "cmpx010"), ⟨0, 0⟩) ∧
      check_equalmemCpp "cmpx010" ⟨0, 1, 1, [1]⟩ ⟨0, 0, 1, [1]⟩ =
        Except.error ("cmpx010" ++ ": const arg changed") ∧
      do_file_status (check_equalmemCpp "cmpx010" ⟨0, 1, 1, [1]⟩ ⟨0, 0, 1, [1]⟩) =
        ("cmpx010" ++ ": const arg changed")) :=
  ⟨by decide, by decide,
   c6_const_arg_amended ⟨0, 1, 1, [1]⟩ ⟨0, 0, 1, [1]⟩ "cmpx010" ⟨0, 0⟩
     (by decide) (by decide)⟩

/-- C7 counterexample: two values that differ only in the
`MPD_STATIC_DATA` allocation flag satisfy the claimed relation (equal
exponent, digit count, coefficient words, and flags outside
`MPD_DATAFLAGS`), yet the C harness's `equalmem` — the relation used by
its changed-operand check — is false on them, because `tests/runtest.c`
compares the full flags byte. -/
theorem c7_counterexample :
    ¬ (equalmem ⟨MPD_STATIC_DATA, 0, 1, [1]⟩ ⟨0, 0, 1, [1]⟩ = true ↔
       specByteExactEq ⟨MPD_STATIC_DATA, 0, 1, [1]⟩ ⟨0, 0, 1, [1]⟩) := by
  decide

/-- C7 (amended): the C++ harness's `equalmem` holds iff exponents,
digit counts and coefficient word sequences are equal and the flags are
equal after masking out `MPD_DATAFLAGS` — exactly the claimed relation;
the C harness's `equalmem` additionally requires the allocation-related
flag bits to be equal (it compares the full flags byte). -/
theorem c7_equalmem_amended (a b : Mpd) :
    (equalmemCpp a b = true ↔ specByteExactEq a b) ∧
    (equalmem a b = true ↔ (specByteExactEq a b ∧ a.flags = b.flags)) := by
  constructor
  · unfold equalmemCpp specByteExactEq
    simp only [Bool.and_eq_true, beq_iff_eq]
    constructor
    · rintro ⟨⟨⟨⟨hf, he⟩, hl⟩, hd⟩, hdata⟩
      exact ⟨he, hd, hdata, hf⟩
    · rintro ⟨he, hd, hdata, hf⟩
      exact ⟨⟨⟨⟨hf, he⟩, by rw [hdata]⟩, hd⟩, hdata⟩
  · unfold equalmem specByteExactEq
    simp only [Bool.and_eq_true, beq_iff_eq]
    constructor
    · rintro ⟨⟨⟨⟨hf, he⟩, hl⟩, hd⟩, hdata⟩
      exact ⟨⟨he, hd, hdata, by rw [hf]⟩, hf⟩
    · rintro ⟨⟨he, hd, hdata, hmask⟩, hf⟩
      exact ⟨⟨⟨⟨hf, he⟩, by rw [hdata]⟩, hd⟩, hdata⟩

/-- C8 counterexample: on the input line `"1""1"` (followed by a
newline, as every `fgets` line is) the tokenizer produces the single
token `1""1`, not `1"1`: the embedded doubled quote does not end the
token, but both of its characters are kept — the doubled quote is not
collapsed into one literal quote character. -/
theorem c8_counterexample :
    split "\"1\"\"1\"\n" = ["1\"\"1"] ∧ ("1\"\"1" : String) ≠ "1\"1" := by
  refine ⟨rfl, by decide⟩

/-- C8 (amended): for an input line starting with the quoted run
`"1""1"`, the tokenizer produces a single token for the run — the
embedded doubled quote character does not end the token — but the token
text is `1""1`: both characters of the doubled quote are preserved
verbatim, not collapsed into one. -/
theorem c8_doubled_quote_amended (c : Char) (rest : List Char)
    (hc : c ≠ '"') :
    (split (String.mk ('"' :: '1' :: '"' :: '"' :: '1' :: '"' :: c :: rest))).head? =
      some "1\"\"1" := by
  have hcb : (c == '"') = false := by simp [hc]
  unfold split
  have hdata : (String.mk ('"' :: '1' :: '"' :: '"' :: '1' :: '"' :: c :: rest)).data =
      '"' :: '1' :: '"' :: '"' :: '1' :: '"' :: c :: rest := rfl
  rw [hdata]
  have hlen : ('"' :: '1' :: '"' :: '"' :: '1' :: '"' :: c :: rest).length + 1 =
      (rest.length + 7) + 1 := by
    simp [List.length]
  rw [hlen, splitGo_succ_cons]
  have hscan : scanQuote '"' [] ('1' :: '"' :: '"' :: '1' :: '"' :: c :: rest) =
      some (['1', '"', '"', '1'], c :: rest) := by
    simp [scanQuote, hcb]
  simp [cIsspace, MAXTOKEN, hscan]

/-- C8 witness for the amended theorem: the concrete line `"1""1"`
followed by a newline. -/
theorem c8_doubled_quote_amended_witness :
    ('\n' ≠ '"') ∧
    (split (String.mk ['"', '1', '"', '"', '1', '"', '\n'])).head? =
      some "1\"\"1" :=
  ⟨by decide, c8_doubled_quote_amended '\n' [] (by decide)⟩

/-- C9: a test-case line whose operation mnemonic the registry does not
recognize reaches the final `else` of the dispatch chain in `doit`,
which calls `mpd_err_fatal` — a fatal error with a diagnostic that
terminates the run — and this happens exactly for the unrecognized
mnemonics: every recognized mnemonic is dispatched to a driver or to
one of the two explicit skip classes, never to the fatal branch. -/
theorem c9_unknown_mnemonic_fatal (m : String) :
    doit_dispatch m = Dispatch.unknownFatal ↔ recognizedMnemonic m = false := by
  unfold doit_dispatch recognizedMnemonic
  by_cases h1 : (registryMnemonics.any fun s => eqtoken m s) = true
  · simp [h1]
  · by_cases h2 : startswith m "get_" = true
    · simp [h1, h2]
    · by_cases h3 : eqtoken m "rescale" = true
      · simp [h1, h2, h3]
      · simp [h1, h2, h3]

/-- A concrete engine operation for witnesses: 5 allocation calls, the
identity on its operand, clean status. -/
def f5ex : EngineOp := ⟨5, fun a => a, 0⟩

/-- A concrete paired engine operation for witnesses. -/
def g5ex : EngineOp2 := ⟨5, fun a _ => a, fun _ b => b, 0⟩

/-- A concrete operand value (the decimal 1). -/
def mpdOne : Mpd := ⟨0, 0, 1, [1]⟩

/-- A concrete single-result binary engine operation for the C++ driver:
1 allocation call, first projection, clean status. -/
def fb1 : EngineBinOp := ⟨1, fun a _ => a, 0⟩

/-- C1 counterexample: in the C++ driver `Dec_DecDecCtx_RunSingle`
(`tests++/runtest.cc`) the `MallocError` exception propagates before the
assignment to the result slot, so a failing trial leaves the result slot
at its pre-call value, not in a quiet-NaN sentinel.  Concretely: with
the result slot holding the (non-NaN) decimal 1 on entry, the loop's
first trial fails and leaves the result slot equal to that decimal,
which is neither a quiet nor a signaling NaN. -/
theorem c1_counterexample :
    (faultLoopCpp fb1 mpdOne mpdOne true (fun _ => 0) mpdOne).head? =
      some ⟨1, true, mpdOne, mpdOne, mpdOne⟩ ∧
    mpd_isqnan mpdOne = false ∧ mpd_issnan mpdOne = false ∧
    mpdOne ≠ qnanSentinel := by
  refine ⟨?_, by decide, by decide, by decide⟩
  unfold faultLoopCpp
  rw [show UINT64_MAX - 100 = 18446744073709551514 + 1 from by
    norm_num [UINT64_MAX]]
  rw [faultLoopCppAux_succ_eq]
  have h1 : (1 : Nat) < UINT64_MAX - 100 := by norm_num [UINT64_MAX]
  rw [if_pos h1]
  have htr : runTrialCpp fb1 mpdOne mpdOne mpdOne true 1 =
      ⟨1, true, mpdOne, mpdOne, mpdOne⟩ := by decide
  rw [htr]
  rfl

/-- C1 (amended): for every failing trial — a trial whose run raises the
malloc-error condition — every input operand slot is byte-exact equal to
its pre-call value in all drivers; the state of the declared result
differs between the two harnesses.  In the C drivers (`_Res_Op_Ctx`,
`_Binres_Binop_Ctx`) the result slot — both slots for paired results —
is left in the quiet-NaN sentinel state.  In the C++ driver
(`Dec_DecDecCtx_RunSingle`) the trapped `MallocError` exception
propagates before the result slot is assigned, so the result slot is
byte-exact equal to its own pre-call value (`save_result`, the value
`r0` threaded through the loop), which is what that harness checks —
not a quiet-NaN sentinel.  The engine's recovery behaviour is modelled
from the spec (§4.4); `hok`/`hok2` state that a run in which no
allocation fails does not raise the malloc condition. -/
theorem c1_failing_trial_amended (f : EngineOp) (g : EngineOp2)
    (fb : EngineBinOp) (op op1 op2 b1 b2 r0 : Mpd)
    (aA ac aA2 ac2 : Nat) (e : Bool) (rnd : Nat → Nat)
    (hok : f.okStatus &&& MPD_Malloc_error = 0)
    (hok2 : g.okStatus &&& MPD_Malloc_error = 0) :
    (∀ tr ∈ faultLoop f op true aA ac, tr.status &&& MPD_Malloc_error ≠ 0 →
       tr.result = qnanSentinel ∧ mpd_isqnan tr.result = true ∧
         equalmem tr.tmp op = true) ∧
    (∀ tr ∈ faultLoop2 g op1 op2 true aA2 ac2,
       tr.status &&& MPD_Malloc_error ≠ 0 →
       tr.result1 = qnanSentinel ∧ tr.result2 = qnanSentinel ∧
         mpd_isqnan tr.result1 = true ∧ mpd_isqnan tr.result2 = true ∧
         equalmem tr.tmp1 op1 = true ∧ equalmem tr.tmp2 op2 = true) ∧
    (∀ tr ∈ faultLoopCpp fb b1 b2 e rnd r0, tr.failed = true →
       tr.result = r0 ∧ equalmemCpp tr.result r0 = true ∧
         equalmemCpp tr.tmp1 b1 = true ∧ equalmemCpp tr.tmp2 b2 = true) := by
  have heq : ∀ x : Mpd, equalmem x x = true := by
    intro x
    simp [equalmem]
  have heqcc : ∀ x : Mpd, equalmemCpp x x = true := by
    intro x
    simp [equalmemCpp]
  refine ⟨?_, ?_, ?_⟩
  · intro tr htr hm
    unfold faultLoop at htr
    obtain ⟨hs, hres, htmp⟩ :=
      faultLoopAux_inv f op true aA ac hok INT_MAX 1 1 tr htr hm
    refine ⟨hres, by rw [hres]; decide, ?_⟩
    rw [htmp]
    exact heq op
  · intro tr htr hm
    unfold faultLoop2 at htr
    obtain ⟨hs, h1, h2, h3, h4⟩ :=
      faultLoop2Aux_inv g op1 op2 true aA2 ac2 hok2 INT_MAX 1 1 tr htr hm
    refine ⟨h1, h2, by rw [h1]; decide, by rw [h2]; decide, ?_, ?_⟩
    · rw [h3]; exact heq op1
    · rw [h4]; exact heq op2
  · intro tr htr hm
    unfold faultLoopCpp at htr
    obtain ⟨h1, h2, h3⟩ :=
      faultLoopCppAux_inv fb b1 b2 e rnd (UINT64_MAX - 100) 1 1 r0 tr htr hm
    refine ⟨h1, by rw [h1]; exact heqcc r0, ?_, ?_⟩
    · rw [h2]; exact heqcc b1
    · rw [h3]; exact heqcc b2

/-- C1 witness: the amended invariant instantiated at concrete
operations and operands. -/
theorem c1_failing_trial_amended_witness :
    f5ex.okStatus &&& MPD_Malloc_error = 0 ∧
    g5ex.okStatus &&& MPD_Malloc_error = 0 ∧
    ((∀ tr ∈ faultLoop f5ex mpdOne true 100 5,
        tr.status &&& MPD_Malloc_error ≠ 0 →
        tr.result = qnanSentinel ∧ mpd_isqnan tr.result = true ∧
          equalmem tr.tmp mpdOne = true) ∧
      (∀ tr ∈ faultLoop2 g5ex mpdOne mpdOne true 50 5,
        tr.status &&& MPD_Malloc_error ≠ 0 →
        tr.result1 = qnanSentinel ∧ tr.result2 = qnanSentinel ∧
          mpd_isqnan tr.result1 = true ∧ mpd_isqnan tr.result2 = true ∧
          equalmem tr.tmp1 mpdOne = true ∧ equalmem tr.tmp2 mpdOne = true) ∧
      (∀ tr ∈ faultLoopCpp fb1 mpdOne mpdOne true (fun _ => 0) mpdOne,
        tr.failed = true →
        tr.result = mpdOne ∧ equalmemCpp tr.result mpdOne = true ∧
          equalmemCpp tr.tmp1 mpdOne = true ∧
          equalmemCpp tr.tmp2 mpdOne = true)) :=
  ⟨by decide, by decide,
   c1_failing_trial_amended f5ex g5ex fb1 mpdOne mpdOne mpdOne mpdOne mpdOne
     mpdOne 100 5 50 5 true (fun _ => 0) (by decide) (by decide)⟩

/-- C2 counterexample: for an operation whose canonical run performs
exactly 5 allocation calls, the claim asserts that the operation first
completes without a malloc-classified status at fail-threshold 5; but
`malloc_fail` fails the call at which `++alloc_idx` reaches the
threshold, so the trial at threshold 5 still raises `MPD_Malloc_error`
— no trial in the loop both uses threshold 5 and completes clean. -/
theorem c2_counterexample :
    ¬ (∃ tr ∈ faultLoop f5ex mpdOne true 100 5, tr.threshold = 5 ∧
        tr.status &&& MPD_Malloc_error = 0) := by
  intro hex
  rw [faultLoop_shape f5ex mpdOne 100 5 (by decide) (by decide) (by decide)]
    at hex
  obtain ⟨tr, htr, h5, hst⟩ := hex
  rw [show f5ex.needs = 5 from rfl,
    show List.range' 1 5 = [1, 2, 3, 4, 5] from rfl] at htr
  simp only [List.map_cons, List.map_nil, List.cons_append, List.nil_append,
    List.mem_cons, List.not_mem_nil, or_false] at htr
  rcases htr with rfl | rfl | rfl | rfl | rfl | rfl
  · exact absurd h5 (by decide)
  · exact absurd h5 (by decide)
  · exact absurd h5 (by decide)
  · exact absurd h5 (by decide)
  · exact absurd hst (by decide)
  · exact absurd h5 (by decide)

/-- C2 (amended): under `--alloc` mode, for an operation whose canonical
(counting) run performs exactly 5 allocation calls, the fault-injection
controller probes fail-at thresholds 1 through 5, each of which raises
`MPD_Malloc_error` and yields the sentinel failure behaviour (the call
at which the incremented call index reaches the threshold itself
fails), and the operation first completes without a malloc-classified
status condition at threshold 6, whose output is the one handed to the
status reconciler. -/
theorem c2_alloc_thresholds_amended (f : EngineOp) (op : Mpd) (ac : Nat)
    (h5 : f.needs = 5) (hok : f.okStatus &&& MPD_Malloc_error = 0) :
    (∀ g : AllocGlobals,
      (engineRun f.needs (mpd_set_alloc_count g)).2.alloc_count = 5) ∧
    faultLoop f op true 100 ac =
      [⟨1, MPD_Malloc_error, qnanSentinel, op⟩,
       ⟨2, MPD_Malloc_error, qnanSentinel, op⟩,
       ⟨3, MPD_Malloc_error, qnanSentinel, op⟩,
       ⟨4, MPD_Malloc_error, qnanSentinel, op⟩,
       ⟨5, MPD_Malloc_error, qnanSentinel, op⟩,
       ⟨6, f.okStatus, f.apply op, op⟩] ∧
    (faultLoop f op true 100 ac).map Trial.threshold = [1, 2, 3, 4, 5, 6] := by
  have hsh := faultLoop_shape f op 100 ac hok (by omega) (by rw [h5]; decide)
  rw [h5] at hsh
  rw [show List.range' 1 5 = [1, 2, 3, 4, 5] from rfl] at hsh
  simp only [List.map_cons, List.map_nil, List.cons_append, List.nil_append]
    at hsh
  refine ⟨?_, hsh, ?_⟩
  · intro g
    obtain ⟨m, cnt, i, t⟩ := g
    unfold mpd_set_alloc_count
    simp only
    rw [engineRun_count]
    simpa using h5
  · rw [hsh]
    rfl

/-- C2 witness: the amended behaviour at a concrete operation. -/
theorem c2_alloc_thresholds_amended_witness :
    f5ex.needs = 5 ∧ f5ex.okStatus &&& MPD_Malloc_error = 0 ∧
    ((∀ g : AllocGlobals,
        (engineRun f5ex.needs (mpd_set_alloc_count g)).2.alloc_count = 5) ∧
      faultLoop f5ex mpdOne true 100 5 =
        [⟨1, MPD_Malloc_error, qnanSentinel, mpdOne⟩,
         ⟨2, MPD_Malloc_error, qnanSentinel, mpdOne⟩,
         ⟨3, MPD_Malloc_error, qnanSentinel, mpdOne⟩,
         ⟨4, MPD_Malloc_error, qnanSentinel, mpdOne⟩,
         ⟨5, MPD_Malloc_error, qnanSentinel, mpdOne⟩,
         ⟨6, f5ex.okStatus, f5ex.apply mpdOne, mpdOne⟩] ∧
      (faultLoop f5ex mpdOne true 100 5).map Trial.threshold =
        [1, 2, 3, 4, 5, 6]) :=
  ⟨rfl, by decide,
   c2_alloc_thresholds_amended f5ex mpdOne 5 rfl (by decide)⟩

/-- C10: when allocation-failure checking was not enabled at program
start, `mpd_set_alloc_fail` installs nothing and leaves the current
allocation functions in place; the fault-injection loop's first trial
therefore runs under ordinary allocation, observes no malloc-error
status, and the loop exits after exactly one invocation of the
operation, whose result is the operation's ordinary output. -/
theorem c10_alloc_disabled (f : EngineOp) (op : Mpd) (aA ac : Nat)
    (g : AllocGlobals) (hok : f.okStatus &&& MPD_Malloc_error = 0) :
    mpd_set_alloc_fail false g = g ∧
    faultLoop f op false aA ac = [runTrial f op false 1] ∧
    runTrial f op false 1 = ⟨1, f.okStatus, f.apply op, op⟩ ∧
    (runTrial f op false 1).status &&& MPD_Malloc_error = 0 := by
  refine ⟨rfl, ?_, runTrial_disabled f op 1, ?_⟩
  · rw [faultLoop_disabled f op aA ac hok, runTrial_disabled]
  · rw [runTrial_disabled]
    exact hok

/-- C10 witness: the no-alloc-mode behaviour at a concrete operation. -/
theorem c10_alloc_disabled_witness :
    f5ex.okStatus &&& MPD_Malloc_error = 0 ∧
    (mpd_set_alloc_fail false ⟨AllocMode.normal, 0, 0, 0⟩ =
        ⟨AllocMode.normal, 0, 0, 0⟩ ∧
      faultLoop f5ex mpdOne false 100 5 = [runTrial f5ex mpdOne false 1] ∧
      runTrial f5ex mpdOne false 1 =
        ⟨1, f5ex.okStatus, f5ex.apply mpdOne, mpdOne⟩ ∧
      (runTrial f5ex mpdOne false 1).status &&& MPD_Malloc_error = 0) :=
  ⟨by decide,
   c10_alloc_disabled f5ex mpdOne 100 5 ⟨AllocMode.normal, 0, 0, 0⟩ (by decide)⟩

/- ------------------------------------------------------------------ -/
/- C5: characterization of well-formed values and the round trip       -/
/- ------------------------------------------------------------------ -/

theorem wellFormed_iff (a : Mpd) : wellFormed a = true ↔
    (((a.flags = 0 ∨ a.flags = 1) ∧
        (a.data = [0] ∨ canonicalWords a.data = true) ∧
        a.digits = digitsOfCoeff (valOfWords a.data) ∧ expValid a.exp = true) ∨
     ((a.flags = 2 ∨ a.flags = 3) ∧ a.data = [] ∧ a.digits = 0 ∧ a.exp = 0) ∨
     ((a.flags = 4 ∨ a.flags = 5 ∨ a.flags = 8 ∨ a.flags = 9) ∧
        (a.data = [] ∨ canonicalWords a.data = true) ∧
        a.digits = decDigits (valOfWords a.data) ∧ a.exp = 0)) := by
  obtain ⟨fl, ex, dg, da⟩ := a
  simp only
  constructor
  · intro h
    have hle : fl ≤ 15 := by
      unfold wellFormed at h
      simp only [Bool.and_eq_true, beq_iff_eq] at h
      obtain ⟨⟨h1, -⟩, -⟩ := h
      have h15 : (MPD_NEG ||| MPD_INF ||| MPD_NAN ||| MPD_SNAN : Nat) = 15 := rfl
      rw [h15] at h1
      calc fl = fl &&& 15 := h1.symm
        _ ≤ 15 := Nat.and_le_right
    interval_cases fl <;>
      simp_all +decide [wellFormed, MPD_NEG, MPD_INF, MPD_NAN, MPD_SNAN]
  · intro h
    rcases h with ⟨hfl | hfl, hd, hdg, hex⟩ | ⟨hfl | hfl, hd, hdg, hex⟩ |
        ⟨hfl | hfl | hfl | hfl, hd, hdg, hex⟩ <;> subst hfl <;>
      simp_all +decide [wellFormed, MPD_NEG, MPD_INF, MPD_NAN, MPD_SNAN]

/-- C5 counterexample: a triple carrying the error tag decodes to the
quiet-NaN sentinel with status `MPD_Conversion_syntax` — its result is
not a signaling NaN, contradicting the claim that error-tagged triples
always decode to a signaling-not-a-number sentinel.  This is the
behaviour the harness itself asserts (`triple_cov` checks
`mpd_isqnan`). -/
theorem c5_counterexample :
    mpd_from_uint128_triple errorTriple =
      (qnanSentinel, -1, MPD_Conversion_syntax) ∧
    mpd_issnan (mpd_from_uint128_triple errorTriple).1 = false ∧
    mpd_isqnan (mpd_from_uint128_triple errorTriple).1 = true := by
  refine ⟨rfl, by decide, by decide⟩

/-- C5 (amended): for every well-formed decimal operand, encoding it to
the fixed-width uint128 triple representation and decoding the triple
back yields a decimal byte-identical to the original whenever the
triple's tag is not the error tag; a triple carrying the error tag
always decodes to the quiet-NaN sentinel (not a signaling NaN), with
return value -1 and status `MPD_Conversion_syntax`. -/
theorem c5_triple_roundtrip_amended (a : Mpd) (hwf : wellFormed a = true)
    (hne : (mpd_as_uint128_triple a).tag ≠ TripleClass.errorCls) :
    mpd_from_uint128_triple (mpd_as_uint128_triple a) = (a, 0, 0) ∧
    equalmem (mpd_from_uint128_triple (mpd_as_uint128_triple a)).1 a = true ∧
    (∀ t : UInt128Triple, t.tag = TripleClass.errorCls →
      mpd_from_uint128_triple t = (qnanSentinel, -1, MPD_Conversion_syntax) ∧
      mpd_isqnan (mpd_from_uint128_triple t).1 = true) := by
  have heqm : ∀ x : Mpd, equalmem x x = true := fun x => by simp [equalmem]
  have herr : ∀ t : UInt128Triple, t.tag = TripleClass.errorCls →
      mpd_from_uint128_triple t = (qnanSentinel, -1, MPD_Conversion_syntax) ∧
      mpd_isqnan (mpd_from_uint128_triple t).1 = true := by
    intro t ht
    obtain ⟨tag, sg, hi, lo, e⟩ := t
    simp only at ht
    subst ht
    have h1 : mpd_from_uint128_triple ⟨TripleClass.errorCls, sg, hi, lo, e⟩ =
        (qnanSentinel, -1, MPD_Conversion_syntax) := rfl
    refine ⟨h1, ?_⟩
    rw [h1]
    decide
  suffices hmain :
      mpd_from_uint128_triple (mpd_as_uint128_triple a) = (a, 0, 0) by
    refine ⟨hmain, ?_, herr⟩
    rw [hmain]
    exact heqm a
  obtain ⟨fl, ex, dg, da⟩ := a
  rw [wellFormed_iff] at hwf
  simp only at hwf
  rcases hwf with ⟨hfl, hd, hdg, hex⟩ | ⟨hfl, hd, hdg, hex⟩ |
    ⟨hfl, hd, hdg, hex⟩
  · -- finite value
    have hdata : dataOfCoeff (valOfWords da) = da := by
      rcases hd with rfl | hcan
      · decide
      · have hpos := valOfWords_pos da hcan
        have hz : (valOfWords da == 0) = false := by
          simp only [beq_eq_false_iff_ne, ne_eq]
          omega
        unfold dataOfCoeff
        simp only [hz, Bool.false_eq_true, if_false]
        exact words_val da hcan
    rcases hfl with rfl | rfl
    · by_cases hlt : valOfWords da < W128
      · have henc : mpd_as_uint128_triple ⟨0, ex, dg, da⟩ =
            ⟨TripleClass.normalCls, 0, valOfWords da / W64,
              valOfWords da % W64, ex⟩ := by
          simp +decide [mpd_as_uint128_triple, MPD_SNAN, MPD_NAN, MPD_INF,
            MPD_NEG, hlt]
        rw [henc]
        simp +decide only [mpd_from_uint128_triple, hex, Bool.and_self,
          if_true]
        rw [hi_lo_recompose, hdata, ← hdg]
      · have henc : mpd_as_uint128_triple ⟨0, ex, dg, da⟩ = errorTriple := by
          simp +decide [mpd_as_uint128_triple, MPD_SNAN, MPD_NAN, MPD_INF,
            MPD_NEG, hlt]
        rw [henc] at hne
        exact absurd rfl hne
    · by_cases hlt : valOfWords da < W128
      · have henc : mpd_as_uint128_triple ⟨1, ex, dg, da⟩ =
            ⟨TripleClass.normalCls, 1, valOfWords da / W64,
              valOfWords da % W64, ex⟩ := by
          simp +decide [mpd_as_uint128_triple, MPD_SNAN, MPD_NAN, MPD_INF,
            MPD_NEG, hlt]
        rw [henc]
        simp +decide only [mpd_from_uint128_triple, hex, Bool.and_self,
          if_true]
        rw [hi_lo_recompose, hdata, ← hdg]
      · have henc : mpd_as_uint128_triple ⟨1, ex, dg, da⟩ = errorTriple := by
          simp +decide [mpd_as_uint128_triple, MPD_SNAN, MPD_NAN, MPD_INF,
            MPD_NEG, hlt]
        rw [henc] at hne
        exact absurd rfl hne
  · -- infinity
    subst hd
    subst hdg
    subst hex
    rcases hfl with rfl | rfl
    · decide
    · decide
  · -- quiet or signaling NaN
    have hdataN : wordsOfVal (valOfWords da) = da := by
      rcases hd with rfl | hcan
      · rfl
      · exact words_val da hcan
    subst hex
    rcases hfl with rfl | rfl | rfl | rfl
    · by_cases hlt : valOfWords da < W128
      · have henc : mpd_as_uint128_triple ⟨4, 0, dg, da⟩ =
            ⟨TripleClass.qnanCls, 0, valOfWords da / W64,
              valOfWords da % W64, 0⟩ := by
          simp +decide [mpd_as_uint128_triple, MPD_SNAN, MPD_NAN, MPD_INF,
            MPD_NEG, hlt]
        rw [henc]
        simp +decide only [mpd_from_uint128_triple, if_true]
        rw [hi_lo_recompose, hdataN, ← hdg]
        rfl
      · have henc : mpd_as_uint128_triple ⟨4, 0, dg, da⟩ = errorTriple := by
          simp +decide [mpd_as_uint128_triple, MPD_SNAN, MPD_NAN, MPD_INF,
            MPD_NEG, hlt]
        rw [henc] at hne
        exact absurd rfl hne
    · by_cases hlt : valOfWords da < W128
      · have henc : mpd_as_uint128_triple ⟨5, 0, dg, da⟩ =
            ⟨TripleClass.qnanCls, 1, valOfWords da / W64,
              valOfWords da % W64, 0⟩ := by
          simp +decide [mpd_as_uint128_triple, MPD_SNAN, MPD_NAN, MPD_INF,
            MPD_NEG, hlt]
        rw [henc]
        simp +decide only [mpd_from_uint128_triple, if_true]
        rw [hi_lo_recompose, hdataN, ← hdg]
        rfl
      · have henc : mpd_as_uint128_triple ⟨5, 0, dg, da⟩ = errorTriple := by
          simp +decide [mpd_as_uint128_triple, MPD_SNAN, MPD_NAN, MPD_INF,
            MPD_NEG, hlt]
        rw [henc] at hne
        exact absurd rfl hne
    · by_cases hlt : valOfWords da < W128
      · have henc : mpd_as_uint128_triple ⟨8, 0, dg, da⟩ =
            ⟨TripleClass.snanCls, 0, valOfWords da / W64,
              valOfWords da % W64, 0⟩ := by
          simp +decide [mpd_as_uint128_triple, MPD_SNAN, MPD_NAN, MPD_INF,
            MPD_NEG, hlt]
        rw [henc]
        simp +decide only [mpd_from_uint128_triple, if_true]
        rw [hi_lo_recompose, hdataN, ← hdg]
        rfl
      · have henc : mpd_as_uint128_triple ⟨8, 0, dg, da⟩ = errorTriple := by
          simp +decide [mpd_as_uint128_triple, MPD_SNAN, MPD_NAN, MPD_INF,
            MPD_NEG, hlt]
        rw [henc] at hne
        exact absurd rfl hne
    · by_cases hlt : valOfWords da < W128
      · have henc : mpd_as_uint128_triple ⟨9, 0, dg, da⟩ =
            ⟨TripleClass.snanCls, 1, valOfWords da / W64,
              valOfWords da % W64, 0⟩ := by
          simp +decide [mpd_as_uint128_triple, MPD_SNAN, MPD_NAN, MPD_INF,
            MPD_NEG, hlt]
        rw [henc]
        simp +decide only [mpd_from_uint128_triple, if_true]
        rw [hi_lo_recompose, hdataN, ← hdg]
        rfl
      · have henc : mpd_as_uint128_triple ⟨9, 0, dg, da⟩ = errorTriple := by
          simp +decide [mpd_as_uint128_triple, MPD_SNAN, MPD_NAN, MPD_INF,
            MPD_NEG, hlt]
        rw [henc] at hne
        exact absurd rfl hne

/-- C5 witness: the round trip at the concrete decimal 1, together with
the error-tag behaviour. -/
theorem c5_triple_roundtrip_amended_witness :
    wellFormed mpdOne = true ∧
    (mpd_as_uint128_triple mpdOne).tag ≠ TripleClass.errorCls ∧
    (mpd_from_uint128_triple (mpd_as_uint128_triple mpdOne) = (mpdOne, 0, 0) ∧
      equalmem (mpd_from_uint128_triple (mpd_as_uint128_triple mpdOne)).1
        mpdOne = true ∧
      (∀ t : UInt128Triple, t.tag = TripleClass.errorCls →
        mpd_from_uint128_triple t = (qnanSentinel, -1, MPD_Conversion_syntax) ∧
        mpd_isqnan (mpd_from_uint128_triple t).1 = true)) :=
  ⟨by decide, by decide,
   c5_triple_roundtrip_amended mpdOne (by decide) (by decide)⟩
